import Mathlib

/-!
Verification development for the pathwise-agv repository.

The embedding models the two backend engines of the repository:

* namespace `Backend` — the AGV scheduling/movement engine of
  `src/unnamed/part_000` (node graph, BFS `findPath`, charging logic,
  the global movement coordinator `coordinateSimultaneousMovement`,
  `createTaskInternal`, `getAvailableAGV`, the auto-task interval body,
  and the `/api/tasks/create` endpoint validation).

* namespace `Enhanced` — the "Ultimate AGV" engine of
  `src/backend/enhanced_server.js` (ServerPathfinding with its own
  adjacency table, A* and Dijkstra+TimeWindow, `calculateAGVScore`,
  `assignTaskToAGV`, `TimeWindowPlanner.resolveConflicts` and the
  `/api/conflicts/resolve` endpoint).

JavaScript numbers are modelled as `Int` where subtraction matters
(battery levels, scores) and as `Nat` for node ids and indices.
JS `Map`/object iteration preserves insertion order; maps are modelled
as association lists with `set` updating in place and `delete` filtering.
JS `Set` is modelled as a duplicate-free list with membership tests.
Wall-clock timestamps, log strings, WebSocket broadcasts and file I/O are
outside the model; random draws of the auto-task generators are taken as
explicit parameters.
-/

namespace Backend

/-- Node graph of `src/unnamed/part_000` lines 130-140: 3x3 grid,
nodes 1-9, no diagonals, edge 6-9 absent; node 9 is the charging station.
Nodes outside 1-9 have no neighbors (JS `nodeGraph[current] || []`). -/
def nodeGraph : Nat → List Nat
  | 1 => [2, 4]
  | 2 => [1, 3, 5]
  | 3 => [2, 6]
  | 4 => [1, 5, 7]
  | 5 => [2, 4, 6, 8]
  | 6 => [3, 5]
  | 7 => [4, 8]
  | 8 => [5, 7, 9]
  | 9 => [8]
  | _ => []

/-- Charging configuration constants, lines 142-146. -/
def CHARGING_NODE : Nat := 9

def LOW_BATTERY_THRESHOLD : Int := 30

def MAX_BATTERY : Int := 100

def CHARGING_RATE : Int := 5

/-- BFS loop of `findPath` (lines 190-209).  The JS `while` loop is
fuelled; each fuel unit is one dequeue, and 1000 fuel strictly exceeds
the number of dequeues possible on the 9-node graph.  The goal check
precedes the visited check, and neighbors are filtered against the
visited set after the current node was added, exactly as in the source. -/
def findPathAux : Nat → List Nat → List (Nat × List Nat) → Nat → Option (List Nat)
  | 0, _, _, _ => none
  | _ + 1, _, [], _ => none
  | fuel + 1, visited, (current, path) :: rest, goal =>
    if current = goal then some path
    else if current ∈ visited then findPathAux fuel visited rest goal
    else
      let visited2 := current :: visited
      let pushes := ((nodeGraph current).filter (fun n => n ∉ visited2)).map
        (fun n => (n, path ++ [n]))
      findPathAux fuel visited2 (rest ++ pushes) goal

/-- Embeds `findPath(start, end)` (lines 187-212): `[start]` when the
endpoints coincide, the BFS result when the search succeeds, and the
fabricated direct pair `[start, end]` when the queue exhausts
(JS comment: "Direct path if no route found"). -/
def findPath (start goal : Nat) : List Nat :=
  if start = goal then [start]
  else
    match findPathAux 1000 [] [(start, [start])] goal with
    | some p => p
    | none => [start, goal]

/-- Vehicle record of `systemState.agvs` (lines 114-118). -/
structure AGV where
  id : String
  position : Nat
  battery : Int
  status : String
  algorithm : String
  deriving Repr, DecidableEq

/-- Task record as pushed by `createTaskInternal` / `createChargingTask` /
the auto-task interval (timestamps, payload numbers and log strings are
outside the model). -/
structure BTask where
  startNode : Nat
  endNode : Nat
  weight : Nat
  priority : String
  agvId : String
  status : String
  isAuto : Bool
  isCharging : Bool
  deriving Repr, DecidableEq

/-- Entry of `globalMovementState.movementQueue` (line 310). -/
structure MovementData where
  path : List Nat
  currentIndex : Nat
  isChargingTask : Bool
  deriving Repr, DecidableEq

/-- Planned movement pushed onto `movementsToExecute` (lines 372-378). -/
structure Movement where
  agvId : String
  fromNode : Nat
  toNode : Nat
  isChargingTask : Bool
  newIndex : Nat
  deriving Repr, DecidableEq

/-- Combined `systemState` and `globalMovementState` of the server. -/
structure SystemState where
  agvs : List AGV
  tasks : List BTask
  occupiedNodes : List Nat
  reservedNodes : List (Nat × String)
  movementQueue : List (String × MovementData)
  totalTasksCompleted : Nat
  isRunning : Bool
  deriving Repr, DecidableEq

/-- Membership-preserving insertion, modelling `Set.add`. -/
def setInsert (n : Nat) (l : List Nat) : List Nat :=
  if n ∈ l then l else l ++ [n]

/-- Removal of one element, modelling `Set.delete` on a duplicate-free list. -/
def setDelete (n : Nat) (l : List Nat) : List Nat :=
  l.filter (fun m => m ≠ n)

/-- Reservation lookup, modelling `reservedNodes.has(node)` /
`reservedNodes.get(node)`. -/
def lookupRes (l : List (Nat × String)) (n : Nat) : Option String :=
  (l.find? (fun p => decide (p.1 = n))).map (fun p => p.2)

/-- Lookup of `systemState.agvs[agvId]`. -/
def findAGV (agvs : List AGV) (id : String) : Option AGV :=
  agvs.find? (fun a => decide (a.id = id))

/-- In-place mutation of one vehicle record of the fleet object. -/
def updateAGV (id : String) (f : AGV → AGV) (agvs : List AGV) : List AGV :=
  agvs.map (fun a => if a.id = id then f a else a)

/-- Map.set on the movement queue: updates the existing key in place
(preserving its iteration position) or appends a new entry. -/
def queueSet (q : List (String × MovementData)) (id : String) (md : MovementData) :
    List (String × MovementData) :=
  if q.any (fun e => decide (e.1 = id)) then
    q.map (fun e => if e.1 = id then (id, md) else e)
  else q ++ [(id, md)]

/-- Embeds `needsCharging(agv)` (lines 215-217). -/
def needsCharging (a : AGV) : Bool :=
  decide (a.battery ≤ LOW_BATTERY_THRESHOLD)

/-- Embeds `startCharging(agvId)` (lines 270-304) up to the point where the
status becomes `charging`; the periodic battery increments run on their own
interval and are outside the per-tick model. -/
def startCharging (id : String) (s : SystemState) : SystemState :=
  match findAGV s.agvs id with
  | none => s
  | some a =>
    if a.position = CHARGING_NODE then
      { s with agvs := updateAGV id (fun x => { x with status := "charging" }) s.agvs }
    else s

/-- Embeds `simulateAGVMovement(agvId, path, executionLog, isChargingTask)`
(lines 464-484): no-op on paths of length at most one, otherwise the queue
entry is set, the status and start position are written, and the start node
is added to the occupied set (the vehicle's previous node is not removed). -/
def simulateAGVMovement (id : String) (path : List Nat) (isChargingTask : Bool)
    (s : SystemState) : SystemState :=
  if path.length ≤ 1 then s
  else
    let s1 := { s with movementQueue := queueSet s.movementQueue id ⟨path, 0, isChargingTask⟩ }
    match findAGV s1.agvs id with
    | none => s1
    | some _ =>
      { s1 with
        agvs := updateAGV id
          (fun a => { a with
            status := if isChargingTask then "charging_route" else "busy",
            position := path.headD 0 }) s1.agvs,
        occupiedNodes := setInsert (path.headD 0) s1.occupiedNodes }

/-- Embeds `createChargingTask(agvId)` (lines 220-267); the generated
execution-log string and broadcast are outside the model. -/
def createChargingTask (id : String) (s : SystemState) : SystemState :=
  match findAGV s.agvs id with
  | none => s
  | some a =>
    if a.status ≠ "idle" then s
    else if a.position = CHARGING_NODE then startCharging id s
    else
      let task : BTask :=
        { startNode := a.position, endNode := CHARGING_NODE, weight := 0,
          priority := "charging", agvId := id, status := "executing",
          isAuto := false, isCharging := true }
      let s1 := { s with
        agvs := updateAGV id (fun x => { x with status := "charging_route" }) s.agvs,
        tasks := s.tasks ++ [task] }
      simulateAGVMovement id (findPath a.position CHARGING_NODE) true s1

/-- Embeds `completeAGVTask(agvId, finalPosition, executionLog,
isChargingTask)` (lines 433-461).  The deferred `createChargingTask`
scheduled through `setTimeout` fires outside the tick and is not part of
the tick transition. -/
def completeAGVTask (id : String) (finalPos : Nat) (isChargingTask : Bool)
    (s : SystemState) : SystemState :=
  match findAGV s.agvs id with
  | none => s
  | some _ =>
    if isChargingTask ∧ finalPos = CHARGING_NODE then
      startCharging id
        { s with agvs := updateAGV id (fun x => { x with position := finalPos }) s.agvs }
    else
      { s with
        agvs := updateAGV id (fun x => { x with status := "idle" })
          (updateAGV id (fun x => { x with position := finalPos }) s.agvs),
        totalTasksCompleted := s.totalTasksCompleted + 1 }

/-- Battery update of an executed movement (lines 394-399):
`Math.max(10, battery - 3)` for a normal step and
`Math.max(10, battery - 1)` for a charging-route step. -/
def batteryAfterStep (isChargingTask : Bool) (b : Int) : Int :=
  if isChargingTask then max 10 (b - 1) else max 10 (b - 3)

/-- Completion action of the planning pass (lines 352-359): when the agv
record exists, `completeAGVTask` runs with the last path node. -/
def maybeComplete (agvId : String) (md : MovementData) (s : SystemState) : SystemState :=
  if (findAGV s.agvs agvId).isSome then
    completeAGVTask agvId (md.path.getLastD 0) md.isChargingTask s
  else s

/-- Map.delete of a movement-queue key (line 358). -/
def queueDrop (agvId : String) (s : SystemState) : SystemState :=
  { s with movementQueue := s.movementQueue.filter (fun e => decide (e.1 ≠ agvId)) }

/-- Planning pass of `coordinateSimultaneousMovement` (lines 348-381):
iterates the snapshot of the movement queue; an exhausted path completes
the task and deletes the queue entry; otherwise the step is admitted only
when the next node is neither occupied nor already reserved this tick, in
which case the node is reserved and the movement recorded. -/
def planLoop : List (String × MovementData) → SystemState → List Movement →
    SystemState × List Movement
  | [], s, acc => (s, acc)
  | (agvId, md) :: rest, s, acc =>
    if md.path.length ≤ md.currentIndex + 1 then
      planLoop rest (queueDrop agvId (maybeComplete agvId md s)) acc
    else
      if md.path.getD (md.currentIndex + 1) 0 ∉ s.occupiedNodes ∧
          lookupRes s.reservedNodes (md.path.getD (md.currentIndex + 1) 0) = none then
        planLoop rest
          { s with reservedNodes := (md.path.getD (md.currentIndex + 1) 0, agvId) :: s.reservedNodes }
          (acc ++ [⟨agvId, md.path.getD md.currentIndex 0, md.path.getD (md.currentIndex + 1) 0,
                    md.isChargingTask, md.currentIndex + 1⟩])
      else planLoop rest s acc

/-- Execution of one planned movement (lines 384-417): occupancy is moved
from the source to the target node, the position and battery are updated,
and the queue index advances. -/
def execMovement (s : SystemState) (m : Movement) : SystemState :=
  match findAGV s.agvs m.agvId with
  | none => s
  | some _ =>
    { s with
      occupiedNodes := setInsert m.toNode (setDelete m.fromNode s.occupiedNodes),
      agvs := updateAGV m.agvId
        (fun a => { a with
          position := m.toNode,
          battery := batteryAfterStep m.isChargingTask a.battery }) s.agvs,
      movementQueue := s.movementQueue.map
        (fun e => if e.1 = m.agvId then (e.1, { e.2 with currentIndex := m.newIndex }) else e) }

/-- Embeds one tick of `coordinateSimultaneousMovement()` (lines 344-430).
Returns the successor state, the executed movements, and the ids reported
through the `agvWaiting` broadcast (queued vehicles that did not move). -/
def coordinateSimultaneousMovement (s : SystemState) :
    SystemState × List Movement × List String :=
  let s0 := { s with reservedNodes := [] }
  let (s1, movements) := planLoop s0.movementQueue s0 []
  let s2 := movements.foldl execMovement s1
  let waiting :=
    (s2.movementQueue.filter
      (fun e => decide (¬ movements.any (fun m => decide (m.agvId = e.1))))).map (fun e => e.1)
  (s2, movements, waiting)

/-- State component of one movement tick. -/
def stepSim (s : SystemState) : SystemState :=
  (coordinateSimultaneousMovement s).1

/-- JS `reduce` of `createTaskInternal` (lines 525-527): the first vehicle
of the list with maximal battery (later vehicles replace the best only on
a strictly larger battery). -/
def maxByBattery : List AGV → Option AGV
  | [] => none
  | a :: rest => some (rest.foldl (fun best cur => if cur.battery > best.battery then cur else best) a)

/-- Candidate filter and selection of `createTaskInternal` (lines 507-527):
idle vehicles that do not need charging, best battery first. -/
def selectTransportAGV (agvs : List AGV) : Option AGV :=
  maxByBattery (agvs.filter (fun a => a.status == "idle" && !(needsCharging a)))

/-- Fallback branch of `createTaskInternal` (lines 511-522): every idle
vehicle that needs charging is sent to the charging station. -/
def chargeDispatch (s : SystemState) : SystemState :=
  ((s.agvs.filter (fun a => a.status == "idle" && needsCharging a)).map (fun a => a.id)).foldl
    (fun st id => createChargingTask id st) s

/-- Embeds `createTaskInternal(startNode, endNode, weight, priority, isAuto)`
(lines 505-579).  The selected vehicle is set busy and teleported to the
task's start node, the task is pushed, the path is planned with `findPath`
and handed to `simulateAGVMovement`.  Returns the new state and the
success flag of the JS result object. -/
def createTaskInternal (startNode endNode weight : Nat) (priority : String)
    (isAuto : Bool) (s : SystemState) : SystemState × Bool :=
  match selectTransportAGV s.agvs with
  | none => (chargeDispatch s, false)
  | some sel =>
    let s1 := { s with
      agvs := updateAGV sel.id
        (fun a => { a with status := "busy", position := startNode }) s.agvs }
    let task : BTask :=
      { startNode := startNode, endNode := endNode, weight := weight,
        priority := priority, agvId := sel.id, status := "executing",
        isAuto := isAuto, isCharging := false }
    let s2 := { s1 with tasks := s1.tasks ++ [task] }
    (simulateAGVMovement sel.id (findPath startNode endNode) false s2, true)

/-- Rejection outcomes of the `/api/tasks/create` endpoint (lines 662-690).
`missingFields`, `sameNodes` and `outOfRange` are the HTTP 400 validations
issued before `createTaskInternal` runs (the spec's `InvalidTaskSpec`);
`noVehicle` is the 400 issued when `createTaskInternal` fails. -/
inductive CreateError where
  | missingFields
  | sameNodes
  | outOfRange
  | noVehicle
  deriving Repr, DecidableEq

/-- Embeds the `/api/tasks/create` handler (lines 662-690).  A falsy field
(0 models a missing or zero JS value) is rejected first, then equal
endpoints, then the 1-9 range; only then does `createTaskInternal` run. -/
def createTaskEndpoint (startNode endNode weight : Nat) (priority : String)
    (s : SystemState) : SystemState × Option CreateError :=
  if startNode = 0 ∨ endNode = 0 ∨ weight = 0 then (s, some .missingFields)
  else if startNode = endNode then (s, some .sameNodes)
  else if startNode < 1 ∨ 9 < startNode ∨ endNode < 1 ∨ 9 < endNode then (s, some .outOfRange)
  else
    let r := createTaskInternal startNode endNode weight priority false s
    (r.1, if r.2 then none else some .noVehicle)

/-- Embeds `getAvailableAGV()` (lines 720-725): the first vehicle in fleet
order whose status is idle, with no battery condition. -/
def getAvailableAGV (s : SystemState) : Option String :=
  ((s.agvs.filter (fun a => a.status == "idle")).map (fun a => a.id)).head?

/-- Embeds the body of the auto-task `setInterval` (lines 728-779) for one
firing in which the random gate passed and produced the given endpoints and
weight: when an idle vehicle exists, a task is pushed for it and the vehicle
is set to `executing` and teleported to the start node.  The deferred
auto-completion `setTimeout` is outside this transition. -/
def autoTaskTick (startNode endNode weight : Nat) (s : SystemState) : SystemState :=
  if s.isRunning then
    match getAvailableAGV s with
    | none => s
    | some id =>
      let task : BTask :=
        { startNode := startNode, endNode := endNode, weight := weight,
          priority := "medium", agvId := id, status := "executing",
          isAuto := true, isCharging := false }
      { s with
        tasks := s.tasks ++ [task],
        agvs := updateAGV id
          (fun a => { a with status := "executing", position := startNode }) s.agvs }
  else s

/-- Embeds `initializeGlobalMovement()` (lines 315-323): clears both node
sets and marks every vehicle position occupied. -/
def initGlobalMovement (s : SystemState) : SystemState :=
  { s with
    occupiedNodes := (s.agvs.map (fun a => a.position)).foldl (fun l n => setInsert n l) [],
    reservedNodes := [] }

/-- Initial fleet of `systemState.agvs` (lines 114-118). -/
def initialAGVs : List AGV :=
  [⟨"AGV1", 1, 100, "idle", "A*"⟩,
   ⟨"AGV2", 5, 85, "idle", "Dijkstra+TimeWindow"⟩,
   ⟨"AGV3", 9, 92, "idle", "ACO"⟩]

/-- System state right after `/api/simulation/start`: the stock fleet with
the occupancy set initialized from the vehicle positions. -/
def startedState : SystemState :=
  initGlobalMovement
    { agvs := initialAGVs, tasks := [], occupiedNodes := [], reservedNodes := [],
      movementQueue := [], totalTasksCompleted := 0, isRunning := true }

/-- Position of a vehicle in a state, for readable theorem statements. -/
def posOf (s : SystemState) (id : String) : Option Nat :=
  (findAGV s.agvs id).map (fun a => a.position)

/-- Battery of a vehicle in a state. -/
def batteryOf (s : SystemState) (id : String) : Option Int :=
  (findAGV s.agvs id).map (fun a => a.battery)

/-- Status of a vehicle in a state. -/
def statusOf (s : SystemState) (id : String) : Option String :=
  (findAGV s.agvs id).map (fun a => a.status)

/-- Planned next node of a queue entry, `path[currentIndex + 1]`. -/
def nextNodeOf (e : String × MovementData) : Nat :=
  e.2.path.getD (e.2.currentIndex + 1) 0

/-- A queue entry with a pending step (not yet at the end of its path). -/
def pendingStep (e : String × MovementData) : Prop :=
  e.2.currentIndex + 1 < e.2.path.length

instance (e : String × MovementData) : Decidable (pendingStep e) := by
  unfold pendingStep; infer_instance

end Backend

namespace Enhanced

/-- Adjacency table of `ServerPathfinding.nodeConnections`
(`src/backend/enhanced_server.js` lines 780-784).  Note that this table
differs from the grid of `part_000`: node 4 lists `[1, 7]` and node 5
lists `[2, 6, 8]`. -/
def nodeConnections : Nat → List Nat
  | 1 => [2, 4]
  | 2 => [1, 3, 5]
  | 3 => [2, 6]
  | 4 => [1, 7]
  | 5 => [2, 6, 8]
  | 6 => [3, 5]
  | 7 => [4, 8]
  | 8 => [5, 7, 9]
  | 9 => [8]
  | _ => []

/-- Grid x-coordinate of the `positions` table of `heuristic`
(lines 874-883); nodes outside 1-9 default to 0 (the JS destructuring
would throw there, and these inputs are never supplied by the server). -/
def px : Nat → Int
  | 1 => 0 | 2 => 1 | 3 => 2
  | 4 => 0 | 5 => 1 | 6 => 2
  | 7 => 0 | 8 => 1 | 9 => 2
  | _ => 0

/-- Grid y-coordinate of the `positions` table of `heuristic`. -/
def py : Nat → Int
  | 1 => 0 | 2 => 0 | 3 => 0
  | 4 => 1 | 5 => 1 | 6 => 1
  | 7 => 2 | 8 => 2 | 9 => 2
  | _ => 0

/-- Embeds `heuristic(node1, node2)` (lines 874-883): Manhattan distance
over the precomputed 3x3 coordinates. -/
def heuristic (a b : Nat) : Nat :=
  (px a - px b).natAbs + (py a - py b).natAbs

/-- Sentinel for the JS `Infinity` distances; every real g-score on the
9-node graph is at most 9, so the sentinel behaves like infinity in all
comparisons the algorithm performs. -/
def INF : Nat := 1000000000

/-- Association-list lookup with a default, used for `gScore.get` /
`distances.get`. -/
def assocGetD (l : List (Nat × Nat)) (n d : Nat) : Nat :=
  ((l.find? (fun p => decide (p.1 = n))).map (fun p => p.2)).getD d

/-- Map.set on an association list keyed by node. -/
def assocSet (l : List (Nat × Nat)) (n v : Nat) : List (Nat × Nat) :=
  if l.any (fun p => decide (p.1 = n)) then
    l.map (fun p => if p.1 = n then (n, v) else p)
  else l ++ [(n, v)]

/-- Stable insertion by fScore: an element is placed before the first
strictly larger score, so equal scores keep their original order — the
behavior of the JS stable `sort((a, b) => a.fScore - b.fScore)`. -/
def insertByFScore (x : Nat × Nat) : List (Nat × Nat) → List (Nat × Nat)
  | [] => [x]
  | y :: ys => if x.2 < y.2 then x :: y :: ys else y :: insertByFScore x ys

/-- Stable ascending sort by fScore. -/
def sortByFScore (l : List (Nat × Nat)) : List (Nat × Nat) :=
  l.foldr insertByFScore []

/-- Embeds `reconstructPath(cameFrom, current)` (lines 885-892); the walk
up the `cameFrom` chain is fuelled (20 exceeds any chain on 9 nodes). -/
def reconstructPath : Nat → List (Nat × Nat) → Nat → List Nat
  | 0, _, cur => [cur]
  | fuel + 1, cameFrom, cur =>
    match (cameFrom.find? (fun p => decide (p.1 = cur))).map (fun p => p.2) with
    | none => [cur]
    | some prev => reconstructPath fuel cameFrom prev ++ [cur]

/-- Neighbor relaxation step of `aStarPathfinding` (lines 809-822),
threading the open set, cameFrom and gScore through the neighbor loop.
`cur` is the node just shifted from the open set and `closed2` already
contains it. -/
def aStarRelax (goal : Nat) (avoid : List Nat) (cur : Nat) (closed2 : List Nat)
    (acc : List (Nat × Nat) × List (Nat × Nat) × List (Nat × Nat)) (n : Nat) :
    List (Nat × Nat) × List (Nat × Nat) × List (Nat × Nat) :=
  let (openSet, cameFrom, g) := acc
  if n ∈ closed2 ∨ n ∈ avoid then acc
  else
    let tentative := assocGetD g cur INF + 1
    if tentative < assocGetD g n INF then
      let cameFrom2 := assocSet cameFrom n cur
      let g2 := assocSet g n tentative
      let f := tentative + heuristic n goal
      let openSet2 := if openSet.any (fun p => decide (p.1 = n)) then openSet
                      else openSet ++ [(n, f)]
      (openSet2, cameFrom2, g2)
    else acc

/-- Main loop of `aStarPathfinding` (lines 798-824): sort the open set by
fScore, shift the head, stop at the goal, otherwise close the node and
relax its neighbors.  Returns `[]` when the open set empties.  Each fuel
unit is one shift; 100 exceeds any possible number of iterations. -/
def aStarLoop (goal : Nat) (avoid : List Nat) :
    Nat → List (Nat × Nat) → List Nat → List (Nat × Nat) → List (Nat × Nat) → List Nat
  | 0, _, _, _, _ => []
  | fuel + 1, openSet, closed, cameFrom, g =>
    match sortByFScore openSet with
    | [] => []
    | (cur, _) :: restOpen =>
      if cur = goal then reconstructPath 20 cameFrom cur
      else
        let closed2 := cur :: closed
        let (openSet2, cameFrom2, g2) :=
          (nodeConnections cur).foldl (aStarRelax goal avoid cur closed2)
            (restOpen, cameFrom, g)
        aStarLoop goal avoid fuel openSet2 closed2 cameFrom2 g2

/-- Embeds `aStarPathfinding(start, end, avoidNodes)` (lines 787-825):
gScore is initialized to Infinity on nodes 1-9 and 0 on the start node,
the open set starts with the start node, and exhaustion yields `[]`. -/
def aStarPathfinding (start goal : Nat) (avoid : List Nat) : List Nat :=
  let g0 := (List.range 9).map (fun i => (i + 1, INF))
  let g1 := assocSet g0 start 0
  aStarLoop goal avoid 100 [(start, heuristic start goal)] [] [] g1

/-- Time window argument of `dijkstraWithTimeWindow`; only the interval
start is read by the algorithm. -/
structure TimeWindow where
  twStart : Nat
  deriving Repr, DecidableEq

/-- Occupied slot table, node id to claimed times (milliseconds). -/
def SlotTable := List (Nat × List Nat)

/-- Embeds `isTimeSlotAvailable(node, time, occupiedSlots)` (lines
894-897): no existing slot of the node within 5 minutes of the time. -/
def isTimeSlotAvailable (node time : Nat) (slots : SlotTable) : Bool :=
  !(((slots.find? (fun p => decide (p.1 = node))).map (fun p => p.2)).getD []).any
    (fun st => decide (((st : Int) - (time : Int)).natAbs < 5 * 60 * 1000))

/-- Argmin scan of `dijkstraWithTimeWindow` (lines 839-847): the first
unvisited node with the strictly smallest distance; none when all the
remaining distances are Infinity. -/
def dijkstraArgmin (unvisited : List Nat) (dist : List (Nat × Nat)) : Option Nat :=
  (unvisited.foldl
    (fun (acc : Option Nat × Nat) n =>
      if assocGetD dist n INF < acc.2 then (some n, assocGetD dist n INF) else acc)
    (none, INF)).1

/-- Neighbor relaxation of `dijkstraWithTimeWindow` (lines 852-865):
time-window-pruned uniform-cost relaxation. -/
def dijkstraRelax (tw : TimeWindow) (slots : SlotTable) (unvisited : List Nat) (cur : Nat)
    (acc : List (Nat × Nat) × List (Nat × Nat)) (n : Nat) :
    List (Nat × Nat) × List (Nat × Nat) :=
  let (dist, prev) := acc
  if n ∉ unvisited then acc
  else
    let alt := assocGetD dist cur INF + 1
    let arrival := tw.twStart + alt * 5 * 60 * 1000
    if isTimeSlotAvailable n arrival slots then
      if alt < assocGetD dist n INF then (assocSet dist n alt, assocSet prev n cur)
      else acc
    else acc

/-- Main loop of `dijkstraWithTimeWindow` (lines 838-866); each fuel unit
removes one node from the unvisited set, so 10 covers the 9 nodes. -/
def dijkstraLoop (goal : Nat) (tw : TimeWindow) (slots : SlotTable) :
    Nat → List Nat → List (Nat × Nat) → List (Nat × Nat) → List (Nat × Nat) × List (Nat × Nat)
  | 0, _, dist, prev => (dist, prev)
  | fuel + 1, unvisited, dist, prev =>
    if unvisited.isEmpty then (dist, prev)
    else
      match dijkstraArgmin unvisited dist with
      | none => (dist, prev)
      | some cur =>
        if cur = goal then (dist, prev)
        else
          let unvisited2 := unvisited.erase cur
          let (dist2, prev2) :=
            (nodeConnections cur).foldl (dijkstraRelax tw slots unvisited2 cur) (dist, prev)
          dijkstraLoop goal tw slots fuel unvisited2 dist2 prev2

/-- Embeds `dijkstraWithTimeWindow(start, end, timeWindow, occupiedSlots)`
(lines 827-872), returning the reconstructed path and the total time. -/
def dijkstraWithTimeWindow (start goal : Nat) (tw : TimeWindow) (slots : SlotTable) :
    List Nat × Nat :=
  let dist0 := assocSet ((List.range 9).map (fun i => (i + 1, INF))) start 0
  let unvisited0 := (List.range 9).map (fun i => i + 1)
  let (dist, prev) := dijkstraLoop goal tw slots 10 unvisited0 dist0 []
  (reconstructPath 20 prev goal, assocGetD dist goal INF * 5 * 60 * 1000)

/-- Vehicle record of the Ultimate-AGV `systemState.agvs` (lines 619-678):
each vehicle carries a configured priority and routing algorithm. -/
structure EAGV where
  id : String
  position : Nat
  battery : Int
  status : String
  priority : String
  algorithm : String
  deriving Repr, DecidableEq

/-- Task fields read by assignment and scoring. -/
structure ETask where
  pickupLocation : Nat
  deliveryLocation : Nat
  priority : String
  deriving Repr, DecidableEq

/-- Embeds `calculateAGVScore(agv, task)` (lines 993-1013).  The distance
factor uses `heuristic` from the vehicle position to the task pickup, the
battery bonus is 30 above 50 and 15 above 25, the priority bonus is looked
up from the VEHICLE's configured priority (`agv.priority`, default 10),
and the algorithm bonus is the fixed table with default 10. -/
def calculateAGVScore (agv : EAGV) (task : ETask) : Int :=
  let distance : Int := heuristic agv.position task.pickupLocation
  let batteryBonus : Int := if agv.battery > 50 then 30 else if agv.battery > 25 then 15 else 0
  let priorityBonus : Int :=
    if agv.priority = "High" then 20
    else if agv.priority = "Medium" then 10
    else if agv.priority = "Low" then 5
    else 10
  let algorithmBonus : Int :=
    if agv.algorithm = "A*" then 15
    else if agv.algorithm = "Dijkstra+TimeWindow" then 10
    else if agv.algorithm = "ACO" then 12
    else 10
  (10 - distance) * 10 + batteryBonus + priorityBonus + algorithmBonus

/-- First maximizer of a scored list: later entries replace the best only
on a strictly larger score.  This equals taking the head after the JS
stable descending `sort((a, b) => b.score - a.score)` of line 955. -/
def selectBestScore : List (EAGV × Int) → Option (EAGV × Int)
  | [] => none
  | x :: xs =>
    match selectBestScore xs with
    | none => some x
    | some y => if y.2 > x.2 then some y else some x

/-- Pickup-leg planning of `assignTaskToAGV` (lines 958-979): the
vehicle's configured algorithm picks the strategy; the `ACO` case and the
`default` case both issue the same `aStarPathfinding` call as the `A*`
case (lines 973-978), and the Dijkstra strategy receives a fresh
half-hour time window starting now with no occupied slots. -/
def plannedPickupPath (sel : EAGV) (task : ETask) (now : Nat) : List Nat :=
  if sel.algorithm = "Dijkstra+TimeWindow" then
    (dijkstraWithTimeWindow sel.position task.pickupLocation ⟨now⟩ []).1
  else aStarPathfinding sel.position task.pickupLocation []

/-- Embeds `assignTaskToAGV(task)` (lines 941-991).  Candidates are the
vehicles with status idle (no battery condition), the best-scoring one is
selected, the pickup path is planned with the vehicle's configured
algorithm, and the assignment commits only when the path is nonempty.
Returns the selected vehicle id and the planned path. -/
def assignTaskToAGV (agvs : List EAGV) (task : ETask) (now : Nat) :
    Option (String × List Nat) :=
  let available := agvs.filter (fun a => a.status == "idle")
  match selectBestScore (available.map (fun a => (a, calculateAGVScore a task))) with
  | none => none
  | some sel =>
    if (plannedPickupPath sel.1 task now).length > 0 then
      some (sel.1.id, plannedPickupPath sel.1 task now)
    else none

/-- Modelled from the spec: the candidate set the specification describes
for task assignment — vehicles with status idle AND battery strictly above
the 30% low-battery threshold.  Stated for comparison with the filter the
code actually applies in `assignTaskToAGV` (status only). -/
def specCandidates (agvs : List EAGV) : List EAGV :=
  agvs.filter (fun a => a.status == "idle" && decide (a.battery > 30))

/-- Modelled from the spec: the score formula the specification describes,
with the priority bonus taken from the TASK's priority (high 20, medium 10,
low 5).  Stated for comparison with `calculateAGVScore`, which reads the
vehicle's configured priority instead. -/
def specScore (agv : EAGV) (task : ETask) : Int :=
  let distance : Int := heuristic agv.position task.pickupLocation
  let batteryBonus : Int := if agv.battery > 50 then 30 else if agv.battery > 25 then 15 else 0
  let priorityBonus : Int :=
    if task.priority = "High" then 20
    else if task.priority = "Medium" then 10
    else 5
  let algorithmBonus : Int :=
    if agv.algorithm = "A*" then 15
    else if agv.algorithm = "Dijkstra+TimeWindow" then 10
    else if agv.algorithm = "ACO" then 12
    else 10
  (10 - distance) * 10 + batteryBonus + priorityBonus + algorithmBonus

/-- Conflict record as produced by `detectConflicts` and consumed by
`resolveConflicts` (`type` and the task-id pair). -/
structure Conflict where
  ctype : String
  tasks : List Nat
  deriving Repr, DecidableEq

/-- Resolution record pushed by `TimeWindowPlanner.resolveConflicts`
(lines 921-935): a delay of the task listed SECOND in the conflict pair. -/
structure Resolution where
  taskId : Nat
  delayTime : Nat
  deriving Repr, DecidableEq

/-- Embeds `TimeWindowPlanner.resolveConflicts(conflicts)` (lines
921-935): every `time_overlap` conflict yields a delay of
`conflict.tasks[1]` by 10 minutes; other conflict types yield nothing. -/
def resolveConflicts (conflicts : List Conflict) : List Resolution :=
  conflicts.filterMap
    (fun c => if c.ctype = "time_overlap" then some ⟨c.tasks.getD 1 0, 10 * 60 * 1000⟩ else none)

/-- Task fields read by the conflict-resolution endpoint. -/
structure CTask where
  id : Nat
  priority : String
  delayedUntil : Option Nat
  deriving Repr, DecidableEq

/-- State touched by `/api/conflicts/resolve`. -/
structure CState where
  tasks : List CTask
  conflicts : List Conflict
  resolvedConflicts : Nat
  deriving Repr, DecidableEq

/-- Application of one resolution (lines 1220-1227): the first task with
the resolved id gets `delayedUntil = now + delayTime`. -/
def applyResolution (now : Nat) (tasks : List CTask) (r : Resolution) : List CTask :=
  match tasks with
  | [] => []
  | t :: rest =>
    if t.id = r.taskId then { t with delayedUntil := some (now + r.delayTime) } :: rest
    else t :: applyResolution now rest r

/-- Embeds the `/api/conflicts/resolve` handler (lines 1215-1236):
computes the resolutions of the flagged set, applies the delays, adds the
resolution count to `resolvedConflicts`, and clears the flagged set.
`now` stands for `Date.now()` during the request. -/
def resolveEndpoint (now : Nat) (s : CState) : CState × List Resolution :=
  let resolutions := resolveConflicts s.conflicts
  ({ tasks := resolutions.foldl (applyResolution now) s.tasks,
     conflicts := [],
     resolvedConflicts := s.resolvedConflicts + resolutions.length },
   resolutions)

end Enhanced

namespace Backend

/-- Keys of a reservation table. -/
def resKeys (l : List (Nat × String)) : List Nat :=
  l.map (fun p => p.1)

/-- State after `/api/simulation/start` followed by the creation of a task
from node 8 to node 9: `createTaskInternal` selects AGV1 (best battery)
and teleports it to node 8. -/
def c1mid : SystemState :=
  (createTaskInternal 8 9 20 "medium" false startedState).1

/-- State after a further task from node 8 to node 5: AGV3 (best battery
among the remaining idle vehicles) is teleported to node 8 as well. -/
def c1mid2 : SystemState :=
  (createTaskInternal 8 5 20 "medium" false c1mid).1

/-- State at the end of the movement tick that follows the two task
creations. -/
def c1post : SystemState :=
  stepSim c1mid2

/-- State after `/api/simulation/start` followed by three task creations
(8 to 9, 1 to 7, 5 to 4): the movement queue holds AGV1, AGV3, AGV2 in
that order, and both AGV3 and AGV2 have node 4 as their next node. -/
def c2pre : SystemState :=
  (createTaskInternal 5 4 20 "medium" false
    ((createTaskInternal 1 7 20 "medium" false
      ((createTaskInternal 8 9 20 "medium" false startedState).1)).1)).1

/-- Safety and ordering properties of one movement tick: every executed
move targets a node that was unoccupied at the start of the tick, no two
executed moves share a target, a pending queue entry that appears after
another pending entry with the same next node is never admitted, and a
pending vehicle with no executed move keeps its position, battery and
status and is reported in the waiting broadcast. -/
def tickOrderSpec (s : SystemState) : Prop :=
  (∀ m ∈ (coordinateSimultaneousMovement s).2.1, m.toNode ∉ s.occupiedNodes) ∧
  ((coordinateSimultaneousMovement s).2.1.map (fun m => m.toNode)).Nodup ∧
  (∀ l1 e1 l2 e2 l3, s.movementQueue = l1 ++ e1 :: (l2 ++ e2 :: l3) →
    pendingStep e1 → pendingStep e2 → nextNodeOf e1 = nextNodeOf e2 →
    ∀ m ∈ (coordinateSimultaneousMovement s).2.1, m.agvId ≠ e2.1) ∧
  (∀ e ∈ s.movementQueue, pendingStep e →
    (∀ m ∈ (coordinateSimultaneousMovement s).2.1, m.agvId ≠ e.1) →
    posOf (coordinateSimultaneousMovement s).1 e.1 = posOf s e.1 ∧
    batteryOf (coordinateSimultaneousMovement s).1 e.1 = batteryOf s e.1 ∧
    statusOf (coordinateSimultaneousMovement s).1 e.1 = statusOf s e.1 ∧
    e.1 ∈ (coordinateSimultaneousMovement s).2.2)

/-- Fleet for the 3x3-grid scenario: three idle vehicles parked off the
route 1-2-5-8-9, with AGV1 holding the best battery. -/
def c7start : SystemState :=
  initGlobalMovement
    { agvs := [⟨"AGV1", 1, 100, "idle", "A*"⟩,
               ⟨"AGV2", 3, 85, "idle", "Dijkstra+TimeWindow"⟩,
               ⟨"AGV3", 7, 92, "idle", "ACO"⟩],
      tasks := [], occupiedNodes := [], reservedNodes := [],
      movementQueue := [], totalTasksCompleted := 0, isRunning := true }

/-- Scenario state after creating the task from node 1 to node 9. -/
def c7assigned : SystemState :=
  (createTaskInternal 1 9 25 "high" false c7start).1

/-- Scenario state after five movement ticks (four moves and the
completion tick). -/
def c7done : SystemState :=
  stepSim (stepSim (stepSim (stepSim (stepSim c7assigned))))

/-- Two-vehicle state with symbolic batteries, both with admissible
pending steps toward distinct free nodes, used to exhibit the per-tick
battery drain of admitted moves. -/
def c6state (b1 b2 : Int) : SystemState :=
  { agvs := [⟨"A1", 1, b1, "busy", "A*"⟩, ⟨"A2", 3, b2, "busy", "A*"⟩],
    tasks := [], occupiedNodes := [1, 3], reservedNodes := [],
    movementQueue := [("A1", ⟨[1, 4], 0, false⟩), ("A2", ⟨[3, 6], 0, false⟩)],
    totalTasksCompleted := 0, isRunning := true }

/-- One-vehicle state with a symbolic battery on a charging route. -/
def c6charge (b : Int) : SystemState :=
  { agvs := [⟨"A1", 1, b, "charging_route", "A*"⟩],
    tasks := [], occupiedNodes := [1], reservedNodes := [],
    movementQueue := [("A1", ⟨[1, 4], 0, true⟩)],
    totalTasksCompleted := 0, isRunning := true }

/-- Single-vehicle state with a battery of 11, used at the clamp
boundary. -/
def c6eleven : SystemState :=
  { agvs := [⟨"A1", 1, 11, "busy", "A*"⟩],
    tasks := [], occupiedNodes := [1], reservedNodes := [],
    movementQueue := [("A1", ⟨[1, 4], 0, false⟩)],
    totalTasksCompleted := 0, isRunning := true }

/-- Running state whose only vehicle is idle with a battery of 20, at or
below the 30-point low-battery threshold. -/
def lowFleet : SystemState :=
  { agvs := [⟨"AGV1", 1, 20, "idle", "A*"⟩],
    tasks := [], occupiedNodes := [1], reservedNodes := [],
    movementQueue := [], totalTasksCompleted := 0, isRunning := true }

end Backend

namespace Enhanced

/-- Fleet whose only vehicle is idle with a battery of 20. -/
def lowEAGV : EAGV := ⟨"AGV1", 1, 20, "idle", "High", "A*"⟩

/-- Transport task with pickup at node 2. -/
def pickupTask : ETask := ⟨2, 9, "High"⟩

/-- Idle vehicle with configured priority Low and algorithm ACO (the
stock AGV3 of the Ultimate-AGV fleet). -/
def scoreAGV : EAGV := ⟨"AGV3", 9, 92, "idle", "Low", "ACO"⟩

/-- High-priority task with pickup at node 5. -/
def scoreTask : ETask := ⟨5, 1, "High"⟩

/-- Two-vehicle idle fleet used to exercise best-score selection. -/
def fleetPair : List EAGV :=
  [⟨"AGV1", 1, 100, "idle", "High", "A*"⟩,
   ⟨"AGV2", 5, 85, "idle", "Medium", "Dijkstra+TimeWindow"⟩]

/-- Conflict state holding one time-overlap conflict between task 1
(priority Low) and task 2 (priority High), listed in that order. -/
def conflictState : CState :=
  ⟨[⟨1, "Low", none⟩, ⟨2, "High", none⟩], [⟨"time_overlap", [1, 2]⟩], 0⟩

/-- Behavior of the conflict-resolution endpoint: the returned
resolutions are those of `resolveConflicts`, the flagged set is cleared,
the resolved count grows by the number of time-overlap conflicts, every
task targeted by a time-overlap conflict (as its second listed task) ends
delayed by exactly 10 simulated minutes, and untargeted tasks are
unchanged. -/
def resolveSpec (now : Nat) (s : CState) : Prop :=
  (resolveEndpoint now s).2 = resolveConflicts s.conflicts ∧
  (resolveEndpoint now s).1.conflicts = [] ∧
  (resolveEndpoint now s).1.resolvedConflicts =
    s.resolvedConflicts + (s.conflicts.filter (fun c => decide (c.ctype = "time_overlap"))).length ∧
  (∀ c ∈ s.conflicts, c.ctype = "time_overlap" →
    ∀ t ∈ (resolveEndpoint now s).1.tasks, t.id = c.tasks.getD 1 0 →
      t.delayedUntil = some (now + 10 * 60 * 1000)) ∧
  (∀ t ∈ s.tasks, (∀ c ∈ s.conflicts, c.ctype = "time_overlap" → t.id ≠ c.tasks.getD 1 0) →
    t ∈ (resolveEndpoint now s).1.tasks)

end Enhanced

/-- Claim C1 (refuted by the code, upholding the spec): starting the
simulation and creating a task from node 8 to node 9 and then a task from
node 8 to node 5 leaves AGV1 and AGV3 both resting on node 8 at the end
of the next movement tick.  `createTaskInternal` teleports the selected
vehicle to the task's start node with no occupancy check, defeating the
injectivity that the reservation machinery of the movement coordinator is
built to maintain. -/
theorem c1_two_vehicles_share_node_8 :
    Backend.posOf Backend.c1post "AGV1" = some 8 ∧
    Backend.posOf Backend.c1post "AGV3" = some 8 ∧
    "AGV1" ≠ "AGV3" := by decide

/-- Claim C7: on the fixed 3x3 grid, the task from node 1 to node 9 is
assigned to the best idle vehicle, the planned path is the 4-hop sequence
1-2-5-8-9 (five nodes), and after the route completes the vehicle rests
at node 9 with its battery reduced from 100 to 88, exactly 12 points. -/
theorem c7_grid_scenario_path_and_battery :
    Backend.c7assigned.movementQueue = [("AGV1", ⟨[1, 2, 5, 8, 9], 0, false⟩)] ∧
    Backend.findPath 1 9 = [1, 2, 5, 8, 9] ∧
    (Backend.findPath 1 9).length = 5 ∧
    Backend.posOf Backend.c7done "AGV1" = some 9 ∧
    Backend.batteryOf Backend.c7done "AGV1" = some 88 ∧
    (100 : Int) - 88 = 12 ∧
    Backend.statusOf Backend.c7done "AGV1" = some "idle" ∧
    Backend.c7done.totalTasksCompleted = 1 := by decide

/-- Claim C9: a task-creation request with equal endpoints or an endpoint
outside 1-9 is rejected by the endpoint validations before
`createTaskInternal` runs — the state is returned unchanged and the
rejection is one of the validation errors, never the no-vehicle error. -/
theorem c9_invalid_task_rejected (s : Backend.SystemState) (a b w : Nat) (p : String)
    (h : a = b ∨ a < 1 ∨ 9 < a ∨ b < 1 ∨ 9 < b) :
    (Backend.createTaskEndpoint a b w p s).1 = s ∧
    ∃ e, (Backend.createTaskEndpoint a b w p s).2 = some e ∧
      e ≠ Backend.CreateError.noVehicle := by
  unfold Backend.createTaskEndpoint
  split_ifs with h1 h2 h3
  · exact ⟨rfl, Backend.CreateError.missingFields, rfl, by decide⟩
  · exact ⟨rfl, Backend.CreateError.sameNodes, rfl, by decide⟩
  · exact ⟨rfl, Backend.CreateError.outOfRange, rfl, by decide⟩
  · exfalso; omega

/-- Witness for claim C9 at the concrete request source 5, destination 5. -/
theorem c9_invalid_task_rejected_witness :
    ((5 : Nat) = 5 ∨ (5 : Nat) < 1 ∨ 9 < (5 : Nat) ∨ (5 : Nat) < 1 ∨ 9 < (5 : Nat)) ∧
    ((Backend.createTaskEndpoint 5 5 20 "high" Backend.startedState).1 = Backend.startedState ∧
     ∃ e, (Backend.createTaskEndpoint 5 5 20 "high" Backend.startedState).2 = some e ∧
       e ≠ Backend.CreateError.noVehicle) :=
  ⟨Or.inl rfl, c9_invalid_task_rejected Backend.startedState 5 5 20 "high" (Or.inl rfl)⟩

/-- Claim C10: the per-step battery update of an executed movement is the
clamped drain max(10, b-3) for a normal step and max(10, b-1) for a
charging-route step, so the result is never below 10 and the nominal
drain of 3 (resp. 1) applies exactly when the battery before the step is
at least 13 (resp. 11). -/
theorem c10_battery_floor_clamp (b : Int) :
    10 ≤ Backend.batteryAfterStep false b ∧
    10 ≤ Backend.batteryAfterStep true b ∧
    Backend.batteryAfterStep false b = max 10 (b - 3) ∧
    Backend.batteryAfterStep true b = max 10 (b - 1) ∧
    (Backend.batteryAfterStep false b = b - 3 ↔ 13 ≤ b) ∧
    (Backend.batteryAfterStep true b = b - 1 ↔ 11 ≤ b) := by
  have hf : Backend.batteryAfterStep false b = max 10 (b - 3) := rfl
  have ht : Backend.batteryAfterStep true b = max 10 (b - 1) := rfl
  rw [hf, ht]
  refine ⟨le_max_left 10 (b - 3), le_max_left 10 (b - 1), rfl, rfl, ?_, ?_⟩
  · rw [max_eq_right_iff]; omega
  · rw [max_eq_right_iff]; omega

/-- Counterexample for claim C6 as stated: a vehicle with battery 11 that
executes a normal admitted step ends at battery 10, not at 11 - 3 = 8 —
the drain is the clamped max(10, b - 3), not exactly 3 points. -/
theorem c6_exact_drain_counterexample :
    Backend.batteryOf Backend.c6eleven "A1" = some 11 ∧
    Backend.batteryOf (Backend.stepSim Backend.c6eleven) "A1" = some 10 ∧
    (11 : Int) - 3 = 8 ∧ (10 : Int) ≠ (8 : Int) := by decide

/-- Claim C6 (amended): in one tick every admitted move is applied —
both vehicles advance, occupancy moves with them, and the queue indices
step — and each admitted step updates the battery by the clamped drain:
max(10, b - 3) on a normal route and max(10, b - 1) on a charging
route. -/
theorem c6_atomic_moves_clamped_drain (b1 b2 b3 : Int) :
    (Backend.coordinateSimultaneousMovement (Backend.c6state b1 b2)).2.1 =
      [⟨"A1", 1, 4, false, 1⟩, ⟨"A2", 3, 6, false, 1⟩] ∧
    Backend.posOf (Backend.stepSim (Backend.c6state b1 b2)) "A1" = some 4 ∧
    Backend.posOf (Backend.stepSim (Backend.c6state b1 b2)) "A2" = some 6 ∧
    Backend.batteryOf (Backend.stepSim (Backend.c6state b1 b2)) "A1" = some (max 10 (b1 - 3)) ∧
    Backend.batteryOf (Backend.stepSim (Backend.c6state b1 b2)) "A2" = some (max 10 (b2 - 3)) ∧
    (Backend.stepSim (Backend.c6state b1 b2)).occupiedNodes = [4, 6] ∧
    (Backend.stepSim (Backend.c6state b1 b2)).movementQueue =
      [("A1", ⟨[1, 4], 1, false⟩), ("A2", ⟨[3, 6], 1, false⟩)] ∧
    Backend.batteryOf (Backend.stepSim (Backend.c6charge b3)) "A1" = some (max 10 (b3 - 1)) := by
  exact ⟨rfl, rfl, rfl, rfl, rfl, rfl, rfl, rfl⟩

/-- Counterexample for claim C4 as stated: on the disconnected pair
(1, 9) with node 8 avoided, `aStarPathfinding` returns the empty path,
and on the disconnected pair (0, 5) `findPath` returns the fabricated
sequence [0, 5] whose nodes are not adjacent — neither strategy reports
a no-path outcome. -/
theorem c4_disconnected_counterexample :
    Enhanced.aStarPathfinding 1 9 [8] = [] ∧
    Backend.findPath 0 5 = [0, 5] ∧
    5 ∉ Backend.nodeGraph 0 := by decide

/-- Claim C4 (amended): on a disconnected pair the BFS of `findPath`
exhausts and the function returns the fabricated two-node sequence
[start, goal], while `aStarPathfinding` returns the empty path when its
open set exhausts. -/
theorem c4_disconnected_fallbacks :
    (∀ st gl : Nat, st ≠ gl →
      Backend.findPathAux 1000 [] [(st, [st])] gl = none →
      Backend.findPath st gl = [st, gl]) ∧
    Enhanced.aStarPathfinding 2 9 [8] = [] := by
  constructor
  · intro st gl hne hnone
    unfold Backend.findPath
    rw [if_neg hne, hnone]
  · decide

/-- Witness for claim C4 at the concrete disconnected pair (7, 10). -/
theorem c4_disconnected_fallbacks_witness :
    ((7 : Nat) ≠ 10 ∧ Backend.findPathAux 1000 [] [(7, [7])] 10 = none) ∧
    Backend.findPath 7 10 = [7, 10] :=
  ⟨⟨by decide, by decide⟩, c4_disconnected_fallbacks.1 7 10 (by decide) (by decide)⟩

/-- Counterexample for claim C2 as stated: after three task creations the
movement queue is AGV1, AGV3, AGV2 in that order, AGV3 and AGV2 both have
the free node 4 as their next node, and the tick admits AGV3 while AGV2 —
the contender with the lower vehicle id — stays at node 5 and is reported
waiting: contention is resolved by queue insertion order, not by
ascending vehicle id. -/
theorem c2_insertion_order_counterexample :
    Backend.c2pre.movementQueue.map (fun e => (e.1, Backend.nextNodeOf e)) =
      [("AGV1", 9), ("AGV3", 4), ("AGV2", 4)] ∧
    (Backend.coordinateSimultaneousMovement Backend.c2pre).2.1 =
      [⟨"AGV3", 1, 4, false, 1⟩] ∧
    Backend.posOf (Backend.stepSim Backend.c2pre) "AGV3" = some 4 ∧
    Backend.posOf (Backend.stepSim Backend.c2pre) "AGV2" = some 5 ∧
    "AGV2" ∈ (Backend.coordinateSimultaneousMovement Backend.c2pre).2.2 ∧
    4 ∉ Backend.c2pre.occupiedNodes := by decide

/-- Counterexample for claim C5 as stated: in a running state whose only
vehicle is idle at battery 20 (at or below the 30-point threshold), the
auto-task interval's `getAvailableAGV` selects it and the interval body
assigns it a transport task, setting it to executing. -/
theorem c5_low_battery_auto_assignment :
    Backend.getAvailableAGV Backend.lowFleet = some "AGV1" ∧
    Backend.batteryOf Backend.lowFleet "AGV1" = some 20 ∧
    (20 : Int) ≤ 30 ∧
    (Backend.autoTaskTick 2 7 15 Backend.lowFleet).tasks =
      [⟨2, 7, 15, "medium", "AGV1", "executing", true, false⟩] ∧
    Backend.statusOf (Backend.autoTaskTick 2 7 15 Backend.lowFleet) "AGV1" =
      some "executing" := by decide

/-- Counterexample for claim C3 as stated: the single idle vehicle with
battery 20 is at or below the threshold — the spec candidate set is empty
— yet `assignTaskToAGV` selects it; and the score of an idle vehicle with
configured priority Low on a task of priority High is 127, not the 142
the spec formula (priority bonus from the task) prescribes. -/
theorem c3_candidate_and_priority_counterexample :
    Enhanced.assignTaskToAGV [Enhanced.lowEAGV] Enhanced.pickupTask 0 = some ("AGV1", [1, 2]) ∧
    Enhanced.lowEAGV.battery ≤ 30 ∧
    Enhanced.specCandidates [Enhanced.lowEAGV] = [] ∧
    Enhanced.calculateAGVScore Enhanced.scoreAGV Enhanced.scoreTask = 127 ∧
    Enhanced.specScore Enhanced.scoreAGV Enhanced.scoreTask = 142 := by decide

/-- Counterexample for claim C8 as stated: on a time-overlap conflict
listing task 1 (priority Low) before task 2 (priority High), the resolve
endpoint delays task 2 — the second listed task, which here has the
HIGHER priority — while the lower-priority task 1 is left undelayed. -/
theorem c8_delays_second_listed_task :
    (Enhanced.resolveEndpoint 0 Enhanced.conflictState).2 = [⟨2, 600000⟩] ∧
    (Enhanced.resolveEndpoint 0 Enhanced.conflictState).1.tasks =
      [⟨1, "Low", none⟩, ⟨2, "High", some 600000⟩] ∧
    (Enhanced.conflictState.tasks.getD 0 ⟨0, "", none⟩).priority = "Low" ∧
    (Enhanced.conflictState.tasks.getD 1 ⟨0, "", none⟩).priority = "High" := by decide


namespace Enhanced

/-- Membership of the result of `selectBestScore`. -/
theorem selectBestScore_mem (l : List (EAGV × Int)) (x : EAGV × Int)
    (h : selectBestScore l = some x) : x ∈ l := by
  induction l generalizing x with
  | nil => simp [selectBestScore] at h
  | cons a t ih =>
    simp only [selectBestScore] at h
    cases ht : selectBestScore t with
    | none =>
      simp only [ht] at h
      cases h
      exact List.mem_cons_self _ _
    | some y =>
      simp only [ht] at h
      by_cases hgt : y.2 > a.2
      · rw [if_pos hgt] at h
        cases h
        exact List.mem_cons_of_mem _ (ih _ ht)
      · rw [if_neg hgt] at h
        cases h
        exact List.mem_cons_self _ _

/-- Emptiness of the input of a failed `selectBestScore`. -/
theorem selectBestScore_eq_none (l : List (EAGV × Int)) (h : selectBestScore l = none) :
    l = [] := by
  cases l with
  | nil => rfl
  | cons a t =>
    simp only [selectBestScore] at h
    cases ht : selectBestScore t with
    | none => simp only [ht] at h; cases h
    | some y =>
      simp only [ht] at h
      by_cases hgt : y.2 > a.2
      · rw [if_pos hgt] at h; cases h
      · rw [if_neg hgt] at h; cases h

/-- Maximality of the result of `selectBestScore`. -/
theorem selectBestScore_le (l : List (EAGV × Int)) (x : EAGV × Int)
    (h : selectBestScore l = some x) : ∀ y ∈ l, y.2 ≤ x.2 := by
  induction l generalizing x with
  | nil => simp [selectBestScore] at h
  | cons a t ih =>
    simp only [selectBestScore] at h
    cases ht : selectBestScore t with
    | none =>
      simp only [ht] at h
      cases h
      intro y hy
      have hnil := selectBestScore_eq_none t ht
      subst hnil
      rcases List.mem_singleton.mp hy with rfl
      exact le_refl _
    | some b =>
      simp only [ht] at h
      by_cases hgt : b.2 > a.2
      · rw [if_pos hgt] at h
        cases h
        intro y hy
        rcases List.mem_cons.mp hy with rfl | hyt
        · exact le_of_lt hgt
        · exact ih _ ht _ hyt
      · rw [if_neg hgt] at h
        cases h
        intro y hy
        rcases List.mem_cons.mp hy with rfl | hyt
        · exact le_refl _
        · exact le_trans (ih _ ht _ hyt) (not_lt.mp hgt)

end Enhanced

/-- Claim C3 (amended): whenever `assignTaskToAGV` commits an assignment,
the selected vehicle is a member of the fleet with status idle whose
`calculateAGVScore` is maximal among all idle vehicles — the candidate
filter is status only, and the score reads the vehicle's configured
priority. -/
theorem c3_idle_best_score_selected (agvs : List Enhanced.EAGV) (task : Enhanced.ETask)
    (now : Nat) (idv : String) (path : List Nat)
    (h : Enhanced.assignTaskToAGV agvs task now = some (idv, path)) :
    ∃ a ∈ agvs, a.id = idv ∧ a.status = "idle" ∧
      ∀ b ∈ agvs, b.status = "idle" →
        Enhanced.calculateAGVScore b task ≤ Enhanced.calculateAGVScore a task := by
  simp only [Enhanced.assignTaskToAGV] at h
  cases hsel : Enhanced.selectBestScore
      ((agvs.filter (fun a => a.status == "idle")).map
        (fun a => (a, Enhanced.calculateAGVScore a task))) with
  | none => simp only [hsel] at h; cases h
  | some sel =>
    simp only [hsel] at h
    split at h
    · have hmem := Enhanced.selectBestScore_mem _ _ hsel
      rw [List.mem_map] at hmem
      obtain ⟨a, hafil, heq⟩ := hmem
      have hagvs : a ∈ agvs ∧ (a.status == "idle") = true := List.mem_filter.mp hafil
      cases h
      refine ⟨a, hagvs.1, ?_, eq_of_beq hagvs.2, ?_⟩
      · rw [← heq]
      · intro b hb hbidle
        have hbfil : b ∈ agvs.filter (fun a => a.status == "idle") :=
          List.mem_filter.mpr ⟨hb, by rw [hbidle]; rfl⟩
        have hbmem : (b, Enhanced.calculateAGVScore b task) ∈
            (agvs.filter (fun a => a.status == "idle")).map
              (fun a => (a, Enhanced.calculateAGVScore a task)) :=
          List.mem_map_of_mem _ hbfil
        have hle := Enhanced.selectBestScore_le _ _ hsel _ hbmem
        rw [← heq] at hle
        exact hle
    · cases h

/-- Witness for claim C3 on the two-vehicle idle fleet. -/
theorem c3_idle_best_score_selected_witness :
    Enhanced.assignTaskToAGV Enhanced.fleetPair ⟨2, 9, "High"⟩ 0 = some ("AGV1", [1, 2]) ∧
    ∃ a ∈ Enhanced.fleetPair, a.id = "AGV1" ∧ a.status = "idle" ∧
      ∀ b ∈ Enhanced.fleetPair, b.status = "idle" →
        Enhanced.calculateAGVScore b ⟨2, 9, "High"⟩ ≤
          Enhanced.calculateAGVScore a ⟨2, 9, "High"⟩ :=
  ⟨by decide,
   c3_idle_best_score_selected Enhanced.fleetPair ⟨2, 9, "High"⟩ 0 "AGV1" [1, 2] (by decide)⟩

namespace Backend

/-- Result of the battery-maximum fold: the initial element or a member
of the list. -/
theorem foldl_best_battery_mem (l : List AGV) (b : AGV) :
    l.foldl (fun best cur => if cur.battery > best.battery then cur else best) b = b ∨
    l.foldl (fun best cur => if cur.battery > best.battery then cur else best) b ∈ l := by
  induction l generalizing b with
  | nil => left; rfl
  | cons a t ih =>
    simp only [List.foldl_cons]
    rcases ih (if a.battery > b.battery then a else b) with h | h
    · rw [h]
      split
      · right; exact List.mem_cons_self _ _
      · left; rfl
    · right; exact List.mem_cons_of_mem _ h

/-- Membership of the result of `maxByBattery`. -/
theorem maxByBattery_mem (l : List AGV) (a : AGV) (h : maxByBattery l = some a) :
    a ∈ l := by
  cases l with
  | nil => cases h
  | cons x t =>
    simp only [maxByBattery] at h
    cases h
    rcases foldl_best_battery_mem t x with h | h
    · rw [h]; exact List.mem_cons_self _ _
    · exact List.mem_cons_of_mem _ h

/-- Guard of the transport-task selection of `createTaskInternal`: the
selected vehicle is idle with battery strictly above 30. -/
theorem selectTransportAGV_spec (agvs : List AGV) (v : AGV)
    (h : selectTransportAGV agvs = some v) : v.status = "idle" ∧ 30 < v.battery := by
  have hm := maxByBattery_mem _ _ h
  rw [List.mem_filter, Bool.and_eq_true] at hm
  obtain ⟨-, h1, h2⟩ := hm
  refine ⟨eq_of_beq h1, ?_⟩
  rw [Bool.not_eq_true'] at h2
  have hnb : ¬ (v.battery ≤ LOW_BATTERY_THRESHOLD) := of_decide_eq_false h2
  unfold LOW_BATTERY_THRESHOLD at hnb
  omega

/-- Guard of `getAvailableAGV`: the selected id belongs to an idle
vehicle of the fleet (battery is not consulted). -/
theorem getAvailableAGV_spec (s : SystemState) (id : String)
    (h : getAvailableAGV s = some id) : ∃ a ∈ s.agvs, a.id = id ∧ a.status = "idle" := by
  unfold getAvailableAGV at h
  cases hf : s.agvs.filter (fun a => a.status == "idle") with
  | nil => rw [hf] at h; cases h
  | cons a t =>
    rw [hf] at h
    simp only [List.map_cons, List.head?_cons] at h
    have ha : a ∈ s.agvs.filter (fun x => x.status == "idle") := by
      rw [hf]; exact List.mem_cons_self _ _
    rw [List.mem_filter] at ha
    cases h
    exact ⟨a, ha.1, rfl, eq_of_beq ha.2⟩

end Backend

/-- Claim C5 (amended): every vehicle selected by `createTaskInternal`
(the path used by manual creation and by `generateAutoTask`) is idle with
battery strictly above 30 — so vehicles in charging or charging_route
status, or at or below the threshold, are never chosen there — while the
independent auto-task interval's `getAvailableAGV` guarantees only that
the chosen vehicle is idle, with no battery condition. -/
theorem c5_selection_guards :
    (∀ (agvs : List Backend.AGV) (v : Backend.AGV),
        Backend.selectTransportAGV agvs = some v → v.status = "idle" ∧ 30 < v.battery) ∧
    (∀ (s : Backend.SystemState) (id : String),
        Backend.getAvailableAGV s = some id →
          ∃ a ∈ s.agvs, a.id = id ∧ a.status = "idle") :=
  ⟨fun agvs v h => Backend.selectTransportAGV_spec agvs v h,
   fun s id h => Backend.getAvailableAGV_spec s id h⟩

/-- Witness for claim C5 at a one-vehicle fleet for each selection path. -/
theorem c5_selection_guards_witness :
    ((⟨"AGV1", 1, 100, "idle", "A*"⟩ : Backend.AGV).status = "idle" ∧
      30 < (⟨"AGV1", 1, 100, "idle", "A*"⟩ : Backend.AGV).battery) ∧
    ∃ a ∈ Backend.lowFleet.agvs, a.id = "AGV1" ∧ a.status = "idle" :=
  ⟨c5_selection_guards.1 [⟨"AGV1", 1, 100, "idle", "A*"⟩]
      ⟨"AGV1", 1, 100, "idle", "A*"⟩ (by decide),
   c5_selection_guards.2 Backend.lowFleet "AGV1" (by decide)⟩

namespace Enhanced

/-- Count of resolutions: one per time-overlap conflict. -/
theorem resolveConflicts_length (cs : List Conflict) :
    (resolveConflicts cs).length =
      (cs.filter (fun c => decide (c.ctype = "time_overlap"))).length := by
  induction cs with
  | nil => rfl
  | cons c t ih =>
    by_cases hc : c.ctype = "time_overlap"
    · have h1 : resolveConflicts (c :: t) =
          ⟨c.tasks.getD 1 0, 10 * 60 * 1000⟩ :: resolveConflicts t := by
        simp [resolveConflicts, List.filterMap_cons, hc]
      have h2 : (c :: t).filter (fun c => decide (c.ctype = "time_overlap")) =
          c :: t.filter (fun c => decide (c.ctype = "time_overlap")) := by
        simp [List.filter_cons, hc]
      rw [h1, h2, List.length_cons, List.length_cons, ih]
    · have h1 : resolveConflicts (c :: t) = resolveConflicts t := by
        simp [resolveConflicts, List.filterMap_cons, hc]
      have h2 : (c :: t).filter (fun c => decide (c.ctype = "time_overlap")) =
          t.filter (fun c => decide (c.ctype = "time_overlap")) := by
        simp [List.filter_cons, hc]
      rw [h1, h2, ih]

/-- Characterization of the produced resolutions. -/
theorem resolveConflicts_mem (cs : List Conflict) (r : Resolution) :
    r ∈ resolveConflicts cs ↔
      ∃ c ∈ cs, c.ctype = "time_overlap" ∧
        r = ⟨c.tasks.getD 1 0, 10 * 60 * 1000⟩ := by
  unfold resolveConflicts
  rw [List.mem_filterMap]
  constructor
  · rintro ⟨c, hc, hf⟩
    by_cases h : c.ctype = "time_overlap"
    · rw [if_pos h] at hf
      exact ⟨c, hc, h, (Option.some_inj.mp hf).symm⟩
    · rw [if_neg h] at hf
      cases hf
  · rintro ⟨c, hc, h, rfl⟩
    exact ⟨c, hc, by rw [if_pos h]⟩

/-- With duplicate-free task ids, the first-match update of
`applyResolution` equals the pointwise update of every matching task. -/
theorem applyResolution_eq_map (now : Nat) (tasks : List CTask) (r : Resolution)
    (h : (tasks.map (fun t => t.id)).Nodup) :
    applyResolution now tasks r =
      tasks.map (fun t =>
        if t.id = r.taskId then { t with delayedUntil := some (now + r.delayTime) } else t) := by
  induction tasks with
  | nil => rfl
  | cons t rest ih =>
    simp only [List.map_cons, List.nodup_cons] at h
    simp only [applyResolution, List.map_cons]
    by_cases ht : t.id = r.taskId
    · rw [if_pos ht, if_pos ht]
      have hrest : ∀ x ∈ rest,
          (if x.id = r.taskId then { x with delayedUntil := some (now + r.delayTime) } else x)
            = x := by
        intro x hx
        rw [if_neg]
        intro hxid
        exact h.1 (by
          rw [← ht] at hxid
          exact hxid ▸ List.mem_map_of_mem (fun t => t.id) hx)
      rw [List.map_congr_left hrest]
      simp
    · rw [if_neg ht, if_neg ht]
      rw [ih h.2]

/-- With duplicate-free task ids and a uniform delay, the fold of
`applyResolution` over a resolution list equals the pointwise update of
every task targeted by some resolution. -/
theorem foldl_applyResolution_eq_map (now : Nat) (rs : List Resolution) (tasks : List CTask)
    (hn : (tasks.map (fun t => t.id)).Nodup)
    (hd : ∀ r ∈ rs, r.delayTime = 10 * 60 * 1000) :
    rs.foldl (applyResolution now) tasks =
      tasks.map (fun t =>
        if rs.any (fun r => decide (r.taskId = t.id)) then
          { t with delayedUntil := some (now + 10 * 60 * 1000) }
        else t) := by
  induction rs generalizing tasks with
  | nil =>
    simp only [List.foldl_nil, List.any_nil]
    have : ∀ t ∈ tasks,
        (if (false : Bool) then { t with delayedUntil := some (now + 10 * 60 * 1000) } else t)
          = t := by
      intro t ht
      rfl
    rw [List.map_congr_left this]
    simp
  | cons r rest ih =>
    simp only [List.foldl_cons]
    rw [applyResolution_eq_map now tasks r hn]
    have hid : ((fun (t : CTask) => t.id) ∘ (fun t =>
        if t.id = r.taskId then { t with delayedUntil := some (now + r.delayTime) } else t))
          = fun t => t.id := by
      funext t
      by_cases ht : t.id = r.taskId
      · simp [Function.comp, ht]
      · simp [Function.comp, ht]
    have hn2 : ((tasks.map (fun t =>
        if t.id = r.taskId then { t with delayedUntil := some (now + r.delayTime) } else t)).map
          (fun t => t.id)).Nodup := by
      rw [List.map_map, hid]
      exact hn
    rw [ih _ hn2 (fun x hx => hd x (List.mem_cons_of_mem r hx)), List.map_map]
    apply List.map_congr_left
    intro t ht
    have hr : r.delayTime = 10 * 60 * 1000 := hd r (List.mem_cons_self _ _)
    by_cases h1 : t.id = r.taskId
    · simp [Function.comp, List.any_cons, h1, hr]
    · have h2 : ¬ (r.taskId = t.id) := fun hx => h1 hx.symm
      simp [Function.comp, List.any_cons, h1, h2]

end Enhanced

/-- Claim C8 (amended): the resolve-conflicts endpoint returns one
resolution per time-overlap conflict, delaying the task listed second in
the conflict pair by exactly 10 simulated minutes (regardless of
priority); the flagged set is cleared, the resolved count grows by the
number of resolutions, every targeted task ends with the delay recorded,
and untargeted tasks are unchanged. -/
theorem c8_resolution_behavior (now : Nat) (s : Enhanced.CState)
    (h : (s.tasks.map (fun t => t.id)).Nodup) : Enhanced.resolveSpec now s := by
  have hd : ∀ r ∈ Enhanced.resolveConflicts s.conflicts, r.delayTime = 10 * 60 * 1000 := by
    intro r hr
    rcases (Enhanced.resolveConflicts_mem s.conflicts r).mp hr with ⟨c, -, -, rfl⟩
    rfl
  refine ⟨rfl, rfl, ?_, ?_, ?_⟩
  · show s.resolvedConflicts + (Enhanced.resolveConflicts s.conflicts).length = _
    rw [Enhanced.resolveConflicts_length]
  · intro c hc hct t htmem htid
    have hbody : t ∈ s.tasks.map (fun t =>
        if (Enhanced.resolveConflicts s.conflicts).any (fun r => decide (r.taskId = t.id)) then
          { t with delayedUntil := some (now + 10 * 60 * 1000) }
        else t) := by
      rw [← Enhanced.foldl_applyResolution_eq_map now _ _ h hd]
      exact htmem
    rw [List.mem_map] at hbody
    obtain ⟨t0, ht0, heq⟩ := hbody
    by_cases hb : (Enhanced.resolveConflicts s.conflicts).any
        (fun r => decide (r.taskId = t0.id)) = true
    · rw [if_pos hb] at heq
      rw [← heq]
    · rw [if_neg (by rw [Bool.not_eq_true] at hb ⊢; exact hb)] at heq
      exfalso
      apply hb
      rw [List.any_eq_true]
      refine ⟨⟨c.tasks.getD 1 0, 10 * 60 * 1000⟩, ?_, ?_⟩
      · exact (Enhanced.resolveConflicts_mem s.conflicts _).mpr ⟨c, hc, hct, rfl⟩
      · subst heq
        exact decide_eq_true htid.symm
  · intro t ht hnone
    show t ∈ (Enhanced.resolveConflicts s.conflicts).foldl (Enhanced.applyResolution now) s.tasks
    rw [Enhanced.foldl_applyResolution_eq_map now _ _ h hd]
    rw [List.mem_map]
    refine ⟨t, ht, ?_⟩
    rw [if_neg]
    intro hany
    rw [List.any_eq_true] at hany
    obtain ⟨r, hr, hrid⟩ := hany
    rcases (Enhanced.resolveConflicts_mem s.conflicts r).mp hr with ⟨c, hc, hct, rfl⟩
    exact hnone c hc hct (of_decide_eq_true hrid).symm

/-- Witness for claim C8 on the two-task conflict state. -/
theorem c8_resolution_behavior_witness :
    (Enhanced.conflictState.tasks.map (fun t => t.id)).Nodup ∧
    Enhanced.resolveSpec 5 Enhanced.conflictState :=
  ⟨by decide, c8_resolution_behavior 5 Enhanced.conflictState (by decide)⟩

namespace Backend

/-- Occupancy is untouched by `startCharging`. -/
theorem startCharging_occupiedNodes (id : String) (s : SystemState) :
    (startCharging id s).occupiedNodes = s.occupiedNodes := by
  unfold startCharging
  split
  · rfl
  · split <;> rfl

/-- Reservations are untouched by `startCharging`. -/
theorem startCharging_reservedNodes (id : String) (s : SystemState) :
    (startCharging id s).reservedNodes = s.reservedNodes := by
  unfold startCharging
  split
  · rfl
  · split <;> rfl

/-- Movement queue is untouched by `startCharging`. -/
theorem startCharging_movementQueue (id : String) (s : SystemState) :
    (startCharging id s).movementQueue = s.movementQueue := by
  unfold startCharging
  split
  · rfl
  · split <;> rfl

/-- Occupancy is untouched by `completeAGVTask`. -/
theorem completeAGVTask_occupiedNodes (id : String) (p : Nat) (c : Bool) (s : SystemState) :
    (completeAGVTask id p c s).occupiedNodes = s.occupiedNodes := by
  unfold completeAGVTask
  split
  · rfl
  · split
    · rw [startCharging_occupiedNodes]
    · rfl

/-- Reservations are untouched by `completeAGVTask`. -/
theorem completeAGVTask_reservedNodes (id : String) (p : Nat) (c : Bool) (s : SystemState) :
    (completeAGVTask id p c s).reservedNodes = s.reservedNodes := by
  unfold completeAGVTask
  split
  · rfl
  · split
    · rw [startCharging_reservedNodes]
    · rfl

/-- Movement queue is untouched by `completeAGVTask`. -/
theorem completeAGVTask_movementQueue (id : String) (p : Nat) (c : Bool) (s : SystemState) :
    (completeAGVTask id p c s).movementQueue = s.movementQueue := by
  unfold completeAGVTask
  split
  · rfl
  · split
    · rw [startCharging_movementQueue]
    · rfl

/-- Occupancy is untouched by `maybeComplete`. -/
theorem maybeComplete_occupiedNodes (id : String) (md : MovementData) (s : SystemState) :
    (maybeComplete id md s).occupiedNodes = s.occupiedNodes := by
  unfold maybeComplete
  split
  · rw [completeAGVTask_occupiedNodes]
  · rfl

/-- Reservations are untouched by `maybeComplete`. -/
theorem maybeComplete_reservedNodes (id : String) (md : MovementData) (s : SystemState) :
    (maybeComplete id md s).reservedNodes = s.reservedNodes := by
  unfold maybeComplete
  split
  · rw [completeAGVTask_reservedNodes]
  · rfl

/-- Movement queue is untouched by `maybeComplete`. -/
theorem maybeComplete_movementQueue (id : String) (md : MovementData) (s : SystemState) :
    (maybeComplete id md s).movementQueue = s.movementQueue := by
  unfold maybeComplete
  split
  · rw [completeAGVTask_movementQueue]
  · rfl

/-- Lookup of an updated fleet at a different id. -/
theorem findAGV_updateAGV_ne (agvs : List AGV) (id x : String) (f : AGV → AGV)
    (hf : ∀ a, (f a).id = a.id) (h : x ≠ id) :
    findAGV (updateAGV id f agvs) x = findAGV agvs x := by
  induction agvs with
  | nil => rfl
  | cons a t ih =>
    simp only [updateAGV, List.map_cons, findAGV] at ih ⊢
    by_cases hax : a.id = id
    · have h1 : decide ((f a).id = x) = false := by
        rw [hf a, hax]
        exact decide_eq_false fun hh => h hh.symm
      have h2 : decide (a.id = x) = false := by
        rw [hax]
        exact decide_eq_false fun hh => h hh.symm
      rw [if_pos hax]
      rw [List.find?_cons_of_neg _ (by rw [h1]; exact Bool.false_ne_true)]
      rw [List.find?_cons_of_neg _ (by rw [h2]; exact Bool.false_ne_true)]
      exact ih
    · rw [if_neg hax]
      by_cases hay : a.id = x
      · rw [List.find?_cons_of_pos _ (by rw [decide_eq_true hay])]
        rw [List.find?_cons_of_pos _ (by rw [decide_eq_true hay])]
      · rw [List.find?_cons_of_neg _ (by rw [decide_eq_false hay]; exact Bool.false_ne_true)]
        rw [List.find?_cons_of_neg _ (by rw [decide_eq_false hay]; exact Bool.false_ne_true)]
        exact ih

/-- Lookup at a different id is untouched by `startCharging`. -/
theorem startCharging_agvs_ne (id x : String) (s : SystemState) (h : x ≠ id) :
    findAGV (startCharging id s).agvs x = findAGV s.agvs x := by
  unfold startCharging
  split
  · rfl
  · split
    · exact findAGV_updateAGV_ne _ _ _ _ (fun a => rfl) h
    · rfl

/-- Lookup at a different id is untouched by `completeAGVTask`. -/
theorem completeAGVTask_agvs_ne (id x : String) (p : Nat) (c : Bool) (s : SystemState)
    (h : x ≠ id) :
    findAGV (completeAGVTask id p c s).agvs x = findAGV s.agvs x := by
  unfold completeAGVTask
  split
  · rfl
  · split
    · rw [startCharging_agvs_ne _ _ _ h]
      exact findAGV_updateAGV_ne _ _ _ _ (fun a => rfl) h
    · dsimp only
      rw [findAGV_updateAGV_ne _ id x (fun a => { a with status := "idle" }) (fun a => rfl) h,
          findAGV_updateAGV_ne _ id x (fun a => { a with position := p }) (fun a => rfl) h]

/-- Lookup at a different id is untouched by `maybeComplete`. -/
theorem maybeComplete_agvs_ne (id x : String) (md : MovementData) (s : SystemState)
    (h : x ≠ id) :
    findAGV (maybeComplete id md s).agvs x = findAGV s.agvs x := by
  unfold maybeComplete
  split
  · exact completeAGVTask_agvs_ne _ _ _ _ _ h
  · rfl

/-- Lookup at an id not moved by the executed movement is untouched. -/
theorem execMovement_agvs_ne (s : SystemState) (m : Movement) (x : String)
    (h : x ≠ m.agvId) :
    findAGV (execMovement s m).agvs x = findAGV s.agvs x := by
  unfold execMovement
  cases hf : findAGV s.agvs m.agvId with
  | none => rfl
  | some a => exact findAGV_updateAGV_ne _ _ _ _ (fun a => rfl) h

/-- Lookup at an id not moved by any executed movement is untouched by
the execution fold. -/
theorem foldl_exec_agvs (movs : List Movement) (s : SystemState) (x : String)
    (h : ∀ m ∈ movs, x ≠ m.agvId) :
    findAGV (movs.foldl execMovement s).agvs x = findAGV s.agvs x := by
  induction movs generalizing s with
  | nil => rfl
  | cons m rest ih =>
    simp only [List.foldl_cons]
    rw [ih _ (fun m2 hm2 => h m2 (List.mem_cons_of_mem m hm2)),
        execMovement_agvs_ne _ _ _ (h m (List.mem_cons_self _ _))]

/-- Queue membership survives the execution fold for vehicles that did
not move. -/
theorem foldl_exec_queue_mem (movs : List Movement) (s : SystemState)
    (e : String × MovementData) (he : e ∈ s.movementQueue)
    (h : ∀ m ∈ movs, m.agvId ≠ e.1) :
    e ∈ (movs.foldl execMovement s).movementQueue := by
  induction movs generalizing s with
  | nil => exact he
  | cons m rest ih =>
    simp only [List.foldl_cons]
    apply ih
    · unfold execMovement
      cases hf : findAGV s.agvs m.agvId with
      | none => exact he
      | some a =>
        have hne : ¬ (e.1 = m.agvId) := fun hh => h m (List.mem_cons_self _ _) hh.symm
        have hfix : (fun (f : String × MovementData) =>
            if f.1 = m.agvId then (f.1, { f.2 with currentIndex := m.newIndex }) else f) e = e := by
          dsimp only
          rw [if_neg hne]
        rw [← hfix]
        exact List.mem_map_of_mem _ he
    · exact fun m2 hm2 => h m2 (List.mem_cons_of_mem m hm2)

end Backend

namespace Backend

/-- Queue drop leaves occupancy unchanged. -/
theorem queueDrop_occupiedNodes (id : String) (s : SystemState) :
    (queueDrop id s).occupiedNodes = s.occupiedNodes := rfl

/-- Queue drop leaves reservations unchanged. -/
theorem queueDrop_reservedNodes (id : String) (s : SystemState) :
    (queueDrop id s).reservedNodes = s.reservedNodes := rfl

/-- Queue drop leaves the fleet unchanged. -/
theorem queueDrop_agvs (id : String) (s : SystemState) :
    (queueDrop id s).agvs = s.agvs := rfl

/-- Failed reservation lookups are exactly the absent keys. -/
theorem lookupRes_eq_none (l : List (Nat × String)) (n : Nat) :
    lookupRes l n = none ↔ n ∉ resKeys l := by
  unfold lookupRes resKeys
  rw [Option.map_eq_none', List.find?_eq_none]
  constructor
  · intro h hmem
    rw [List.mem_map] at hmem
    obtain ⟨p, hp, hpn⟩ := hmem
    exact h p hp (decide_eq_true hpn)
  · intro h p hp hdp
    apply h
    have hpn : p.1 = n := of_decide_eq_true hdp
    have hmem : p.1 ∈ l.map (fun p => p.1) := List.mem_map_of_mem (fun p => p.1) hp
    rw [hpn] at hmem
    exact hmem

/-- The planning pass never changes the occupancy set. -/
theorem planLoop_occ (q : List (String × MovementData)) :
    ∀ (s : SystemState) (acc : List Movement),
    (planLoop q s acc).1.occupiedNodes = s.occupiedNodes := by
  induction q with
  | nil => intro s acc; rfl
  | cons e rest ih =>
    intro s acc
    obtain ⟨agvId, md⟩ := e
    simp only [planLoop]
    split
    · rw [ih, queueDrop_occupiedNodes, maybeComplete_occupiedNodes]
    · split
      · rw [ih]
      · rw [ih]

/-- Reservation keys only grow during the planning pass. -/
theorem planLoop_res_mono (q : List (String × MovementData)) :
    ∀ (s : SystemState) (acc : List Movement) (n : Nat),
    n ∈ resKeys s.reservedNodes → n ∈ resKeys (planLoop q s acc).1.reservedNodes := by
  induction q with
  | nil => intro s acc n h; exact h
  | cons e rest ih =>
    intro s acc n h
    obtain ⟨agvId, md⟩ := e
    simp only [planLoop]
    split
    · apply ih
      rw [queueDrop_reservedNodes, maybeComplete_reservedNodes]
      exact h
    · split
      · exact ih _ _ _ (List.mem_cons_of_mem _ h)
      · exact ih _ _ _ h

/-- No movement is planned for a key absent from the remaining queue and
the accumulator. -/
theorem planLoop_no_key (q : List (String × MovementData)) :
    ∀ (s : SystemState) (acc : List Movement) (x : String),
    (∀ e ∈ q, e.1 ≠ x) → (∀ m ∈ acc, m.agvId ≠ x) →
    ∀ m ∈ (planLoop q s acc).2, m.agvId ≠ x := by
  induction q with
  | nil => intro s acc x _ hacc m hm; exact hacc m hm
  | cons e rest ih =>
    intro s acc x hq hacc
    obtain ⟨agvId, md⟩ := e
    have hhead : agvId ≠ x := hq (agvId, md) (List.mem_cons_self _ _)
    have hrest : ∀ e ∈ rest, e.1 ≠ x := fun e he => hq e (List.mem_cons_of_mem _ he)
    simp only [planLoop]
    split
    · exact ih _ _ _ hrest hacc
    · split
      · apply ih _ _ _ hrest
        intro m hm
        rcases List.mem_append.mp hm with hm | hm
        · exact hacc m hm
        · rcases List.mem_singleton.mp hm with rfl
          exact hhead
      · exact ih _ _ _ hrest hacc

/-- A pending entry whose next node is already occupied or reserved is
never admitted, now or later in the pass. -/
theorem planLoop_blocked (q : List (String × MovementData)) :
    ∀ (s : SystemState) (acc : List Movement) (e2 : String × MovementData),
    ((q.map (fun e => e.1)).Nodup) → e2 ∈ q → pendingStep e2 →
    (nextNodeOf e2 ∈ s.occupiedNodes ∨ nextNodeOf e2 ∈ resKeys s.reservedNodes) →
    (∀ m ∈ acc, m.agvId ≠ e2.1) →
    ∀ m ∈ (planLoop q s acc).2, m.agvId ≠ e2.1 := by
  induction q with
  | nil => intro s acc e2 _ he2; exact absurd he2 (List.not_mem_nil _)
  | cons e rest ih =>
    intro s acc e2 hnd he2 hpend hblock hacc
    obtain ⟨agvId, md⟩ := e
    rw [List.map_cons, List.nodup_cons] at hnd
    simp only [planLoop]
    split
    · rename_i hdone
      have he2r : e2 ∈ rest := by
        rcases List.mem_cons.mp he2 with rfl | hr
        · exact absurd hpend (by simp only [pendingStep]; omega)
        · exact hr
      refine ih _ _ _ hnd.2 he2r hpend ?_ hacc
      rw [queueDrop_occupiedNodes, maybeComplete_occupiedNodes,
          queueDrop_reservedNodes, maybeComplete_reservedNodes]
      exact hblock
    · rename_i hnotdone
      split
      · rename_i hadm
        have he2r : e2 ∈ rest := by
          rcases List.mem_cons.mp he2 with rfl | hr
          · exfalso
            rcases hblock with hb | hb
            · exact hadm.1 hb
            · exact ((lookupRes_eq_none _ _).mp hadm.2) hb
          · exact hr
        have hkey : agvId ≠ e2.1 := by
          intro hh
          apply hnd.1
          have hmem : e2.1 ∈ rest.map (fun e => e.1) := List.mem_map_of_mem _ he2r
          rw [← hh] at hmem
          exact hmem
        refine ih _ _ _ hnd.2 he2r hpend ?_ ?_
        · rcases hblock with hb | hb
          · exact Or.inl hb
          · exact Or.inr (List.mem_cons_of_mem _ hb)
        · intro m hm
          rcases List.mem_append.mp hm with hm | hm
          · exact hacc m hm
          · rcases List.mem_singleton.mp hm with rfl
            exact hkey
      · rename_i hnadm
        rcases List.mem_cons.mp he2 with rfl | he2r
        · apply planLoop_no_key
          · intro f hf hff
            apply hnd.1
            have hmem : f.1 ∈ rest.map (fun e => e.1) := List.mem_map_of_mem _ hf
            rw [hff] at hmem
            exact hmem
          · exact hacc
        · exact ih _ _ _ hnd.2 he2r hpend hblock hacc

/-- A pending entry that appears after another pending entry with the
same next node is never admitted: the earlier entry either gets the
reservation or is itself blocked, and in both cases the node stays
unavailable for the later entry. -/
theorem planLoop_later_contender (l1 : List (String × MovementData)) :
    ∀ (s : SystemState) (acc : List Movement) (e1 : String × MovementData)
      (l2 : List (String × MovementData)) (e2 : String × MovementData)
      (l3 : List (String × MovementData)),
    (((l1 ++ e1 :: (l2 ++ e2 :: l3)).map (fun e => e.1)).Nodup) →
    pendingStep e1 → pendingStep e2 → nextNodeOf e1 = nextNodeOf e2 →
    (∀ m ∈ acc, m.agvId ≠ e2.1) →
    ∀ m ∈ (planLoop (l1 ++ e1 :: (l2 ++ e2 :: l3)) s acc).2, m.agvId ≠ e2.1 := by
  induction l1 with
  | nil =>
    intro s acc e1 l2 e2 l3 hnd hp1 hp2 hnext hacc
    obtain ⟨aid, amd⟩ := e1
    simp only [List.nil_append] at hnd ⊢
    rw [List.map_cons, List.nodup_cons] at hnd
    have he2mem : e2 ∈ l2 ++ e2 :: l3 :=
      List.mem_append.mpr (Or.inr (List.mem_cons_self _ _))
    have hkey : aid ≠ e2.1 := by
      intro hh
      apply hnd.1
      have hmem : e2.1 ∈ (l2 ++ e2 :: l3).map (fun e => e.1) :=
        List.mem_map_of_mem _ he2mem
      rw [← hh] at hmem
      exact hmem
    simp only [planLoop]
    split
    · rename_i hdone
      exact absurd hp1 (by simp only [pendingStep]; omega)
    · rename_i hnotdone
      split
      · rename_i hadm
        refine planLoop_blocked _ _ _ _ hnd.2 he2mem hp2 ?_ ?_
        · right
          rw [← hnext]
          exact List.mem_cons_self _ _
        · intro m hm
          rcases List.mem_append.mp hm with hm | hm
          · exact hacc m hm
          · rcases List.mem_singleton.mp hm with rfl
            exact hkey
      · rename_i hnadm
        have hblock2 : nextNodeOf e2 ∈ s.occupiedNodes ∨
            nextNodeOf e2 ∈ resKeys s.reservedNodes := by
          rw [← hnext]
          by_cases hocc : amd.path.getD (amd.currentIndex + 1) 0 ∈ s.occupiedNodes
          · exact Or.inl hocc
          · right
            by_cases hres : lookupRes s.reservedNodes (amd.path.getD (amd.currentIndex + 1) 0)
                = none
            · exact absurd ⟨hocc, hres⟩ hnadm
            · by_contra hmem
              exact hres ((lookupRes_eq_none _ _).mpr hmem)
        exact planLoop_blocked _ _ _ _ hnd.2 he2mem hp2 hblock2 hacc
  | cons f l1t ih =>
    intro s acc e1 l2 e2 l3 hnd hp1 hp2 hnext hacc
    obtain ⟨fid, fmd⟩ := f
    simp only [List.cons_append] at hnd ⊢
    rw [List.map_cons, List.nodup_cons] at hnd
    have he2tail : e2 ∈ l1t ++ e1 :: (l2 ++ e2 :: l3) := by
      apply List.mem_append.mpr
      right
      apply List.mem_cons_of_mem
      exact List.mem_append.mpr (Or.inr (List.mem_cons_self _ _))
    have hkey : fid ≠ e2.1 := by
      intro hh
      apply hnd.1
      have hmem : e2.1 ∈ (l1t ++ e1 :: (l2 ++ e2 :: l3)).map (fun e => e.1) :=
        List.mem_map_of_mem _ he2tail
      rw [← hh] at hmem
      exact hmem
    simp only [planLoop]
    split
    · exact ih _ _ _ _ _ _ hnd.2 hp1 hp2 hnext hacc
    · split
      · apply ih _ _ _ _ _ _ hnd.2 hp1 hp2 hnext
        intro m hm
        rcases List.mem_append.mp hm with hm | hm
        · exact hacc m hm
        · rcases List.mem_singleton.mp hm with rfl
          exact hkey
      · exact ih _ _ _ _ _ _ hnd.2 hp1 hp2 hnext hacc

end Backend

namespace Backend

/-- Planned movement targets are pairwise distinct and were unoccupied
at the start of the pass: each admitted target is immediately reserved,
and admission requires the target to be neither occupied nor reserved. -/
theorem planLoop_targets (q : List (String × MovementData)) :
    ∀ (s : SystemState) (acc : List Movement),
    (∀ m ∈ acc, m.toNode ∈ resKeys s.reservedNodes) →
    ((acc.map (fun m => m.toNode)).Nodup) →
    (∀ m ∈ acc, m.toNode ∉ s.occupiedNodes) →
    ((planLoop q s acc).2.map (fun m => m.toNode)).Nodup ∧
    ∀ m ∈ (planLoop q s acc).2, m.toNode ∉ s.occupiedNodes := by
  induction q with
  | nil => intro s acc h1 h2 h3; exact ⟨h2, h3⟩
  | cons e rest ih =>
    intro s acc h1 h2 h3
    obtain ⟨agvId, md⟩ := e
    simp only [planLoop]
    split
    · have hocc : (queueDrop agvId (maybeComplete agvId md s)).occupiedNodes
          = s.occupiedNodes := by
        rw [queueDrop_occupiedNodes, maybeComplete_occupiedNodes]
      have hres : (queueDrop agvId (maybeComplete agvId md s)).reservedNodes
          = s.reservedNodes := by
        rw [queueDrop_reservedNodes, maybeComplete_reservedNodes]
      have hmain := ih (queueDrop agvId (maybeComplete agvId md s)) acc
        (by rw [hres]; exact h1) h2 (by rw [hocc]; exact h3)
      refine ⟨hmain.1, ?_⟩
      intro m hm
      have hx := hmain.2 m hm
      rwa [hocc] at hx
    · split
      · rename_i hnotdone hadm
        have hfresh : md.path.getD (md.currentIndex + 1) 0 ∉ resKeys s.reservedNodes :=
          (lookupRes_eq_none _ _).mp hadm.2
        have h1n : ∀ m ∈ acc ++ [(⟨agvId, md.path.getD md.currentIndex 0,
            md.path.getD (md.currentIndex + 1) 0, md.isChargingTask,
            md.currentIndex + 1⟩ : Movement)],
            m.toNode ∈ resKeys ((md.path.getD (md.currentIndex + 1) 0, agvId)
              :: s.reservedNodes) := by
          intro m hm
          rcases List.mem_append.mp hm with hm | hm
          · exact List.mem_cons_of_mem _ (h1 m hm)
          · rcases List.mem_singleton.mp hm with rfl
            exact List.mem_cons_self _ _
        have h2n : (((acc ++ [(⟨agvId, md.path.getD md.currentIndex 0,
            md.path.getD (md.currentIndex + 1) 0, md.isChargingTask,
            md.currentIndex + 1⟩ : Movement)]).map (fun m => m.toNode)).Nodup) := by
          rw [List.map_append]
          rw [List.nodup_append]
          refine ⟨h2, List.nodup_singleton _, ?_⟩
          intro a ha hb
          rcases List.mem_singleton.mp hb with rfl
          rw [List.mem_map] at ha
          obtain ⟨m, hmacc, hmt⟩ := ha
          apply hfresh
          have hmt2 : m.toNode = md.path.getD (md.currentIndex + 1) 0 := hmt
          rw [← hmt2]
          exact h1 m hmacc
        have h3n : ∀ m ∈ acc ++ [(⟨agvId, md.path.getD md.currentIndex 0,
            md.path.getD (md.currentIndex + 1) 0, md.isChargingTask,
            md.currentIndex + 1⟩ : Movement)],
            m.toNode ∉ s.occupiedNodes := by
          intro m hm
          rcases List.mem_append.mp hm with hm | hm
          · exact h3 m hm
          · rcases List.mem_singleton.mp hm with rfl
            exact hadm.1
        exact ih _ _ h1n h2n h3n
      · exact ih _ _ h1 h2 h3

/-- The fleet record of a vehicle whose queue entries are all pending is
untouched by the planning pass. -/
theorem planLoop_agvs_pending (q : List (String × MovementData)) :
    ∀ (s : SystemState) (acc : List Movement) (x : String),
    (∀ e ∈ q, e.1 = x → pendingStep e) →
    findAGV (planLoop q s acc).1.agvs x = findAGV s.agvs x := by
  induction q with
  | nil => intro s acc x _; rfl
  | cons e rest ih =>
    intro s acc x hq
    obtain ⟨agvId, md⟩ := e
    simp only [planLoop]
    split
    · rename_i hdone
      have hne : x ≠ agvId := by
        intro hh
        have hp := hq (agvId, md) (List.mem_cons_self _ _) hh.symm
        simp only [pendingStep] at hp
        omega
      rw [ih _ _ _ (fun e he hex => hq e (List.mem_cons_of_mem _ he) hex)]
      rw [queueDrop_agvs]
      exact maybeComplete_agvs_ne _ _ _ _ hne
    · split
      · exact ih _ _ _ (fun e he hex => hq e (List.mem_cons_of_mem _ he) hex)
      · exact ih _ _ _ (fun e he hex => hq e (List.mem_cons_of_mem _ he) hex)

/-- A queue entry of a vehicle whose entries are all pending survives
the planning pass. -/
theorem planLoop_queue_mem (q : List (String × MovementData)) :
    ∀ (s : SystemState) (acc : List Movement) (e : String × MovementData),
    e ∈ s.movementQueue → (∀ f ∈ q, f.1 = e.1 → pendingStep f) →
    e ∈ (planLoop q s acc).1.movementQueue := by
  induction q with
  | nil => intro s acc e he _; exact he
  | cons f rest ih =>
    intro s acc e he hq
    obtain ⟨agvId, md⟩ := f
    simp only [planLoop]
    split
    · rename_i hdone
      apply ih
      · have hne : e.1 ≠ agvId := by
          intro hh
          have hp := hq (agvId, md) (List.mem_cons_self _ _) hh.symm
          simp only [pendingStep] at hp
          omega
        show e ∈ (maybeComplete agvId md s).movementQueue.filter
          (fun f => decide (f.1 ≠ agvId))
        rw [maybeComplete_movementQueue]
        exact List.mem_filter.mpr ⟨he, decide_eq_true hne⟩
      · exact fun f hf => hq f (List.mem_cons_of_mem _ hf)
    · split
      · exact ih _ _ _ he (fun f hf => hq f (List.mem_cons_of_mem _ hf))
      · exact ih _ _ _ he (fun f hf => hq f (List.mem_cons_of_mem _ hf))

end Backend

/-- Claim C2 (amended): in every tick a step is admitted only if its next
node is neither occupied nor already reserved (admitted targets were
unoccupied at tick start and are pairwise distinct); contention between
two pending entries with the same next node is won by the entry that
comes first in movement-queue insertion order — the later entry is never
admitted; and each loser keeps its position, battery and status and is
reported waiting for that tick only, with no waiting state persisted. -/
theorem c2_admission_and_queue_order (s : Backend.SystemState)
    (h : (s.movementQueue.map (fun e => e.1)).Nodup) : Backend.tickOrderSpec s := by
  have hmov : (Backend.coordinateSimultaneousMovement s).2.1 =
      (Backend.planLoop s.movementQueue { s with reservedNodes := [] } []).2 := rfl
  have hstate : (Backend.coordinateSimultaneousMovement s).1 =
      ((Backend.planLoop s.movementQueue { s with reservedNodes := [] } []).2).foldl
        Backend.execMovement
        (Backend.planLoop s.movementQueue { s with reservedNodes := [] } []).1 := rfl
  have hvac1 : ∀ m ∈ ([] : List Backend.Movement),
      m.toNode ∈ Backend.resKeys ({ s with reservedNodes := [] } :
        Backend.SystemState).reservedNodes :=
    fun m hm => absurd hm (List.not_mem_nil m)
  have hvac2 : ∀ m ∈ ([] : List Backend.Movement),
      m.toNode ∉ ({ s with reservedNodes := [] } : Backend.SystemState).occupiedNodes :=
    fun m hm => absurd hm (List.not_mem_nil m)
  have htargets := Backend.planLoop_targets s.movementQueue
    { s with reservedNodes := [] } [] hvac1 List.nodup_nil hvac2
  refine ⟨?_, ?_, ?_, ?_⟩
  · intro m hm
    rw [hmov] at hm
    exact htargets.2 m hm
  · rw [hmov]
    exact htargets.1
  · intro l1 e1 l2 e2 l3 hsplit hp1 hp2 hnn m hm
    rw [hmov] at hm
    rw [hsplit] at hm h
    exact Backend.planLoop_later_contender l1 _ _ e1 l2 e2 l3 h hp1 hp2 hnn
      (fun m hm => absurd hm (List.not_mem_nil m)) m hm
  · intro e he hpend hnomov
    have hqcond : ∀ f ∈ s.movementQueue, f.1 = e.1 → Backend.pendingStep f := by
      intro f hf hfe
      have hfeq : f = e := List.inj_on_of_nodup_map h hf he hfe
      rw [hfeq]
      exact hpend
    have h1 : Backend.findAGV ((Backend.coordinateSimultaneousMovement s).1).agvs e.1 =
        Backend.findAGV s.agvs e.1 := by
      rw [hstate]
      rw [Backend.foldl_exec_agvs _ _ _
        (fun m hm hh => hnomov m (by rw [hmov]; exact hm) hh.symm)]
      exact Backend.planLoop_agvs_pending _ _ _ _ hqcond
    refine ⟨?_, ?_, ?_, ?_⟩
    · unfold Backend.posOf
      rw [h1]
    · unfold Backend.batteryOf
      rw [h1]
    · unfold Backend.statusOf
      rw [h1]
    · have he2 : e ∈ ((Backend.coordinateSimultaneousMovement s).1).movementQueue := by
        rw [hstate]
        apply Backend.foldl_exec_queue_mem
        · exact Backend.planLoop_queue_mem _ _ _ _ he hqcond
        · intro m hm
          exact hnomov m (by rw [hmov]; exact hm)
      have hwait : (Backend.coordinateSimultaneousMovement s).2.2 =
          (((Backend.coordinateSimultaneousMovement s).1).movementQueue.filter
            (fun f => decide (¬ (Backend.coordinateSimultaneousMovement s).2.1.any
              (fun m => decide (m.agvId = f.1)) = true))).map (fun f => f.1) := rfl
      rw [hwait, List.mem_map]
      refine ⟨e, ?_, rfl⟩
      apply List.mem_filter.mpr
      refine ⟨he2, ?_⟩
      apply decide_eq_true
      intro hany
      rw [List.any_eq_true] at hany
      obtain ⟨m, hm, hmid⟩ := hany
      exact hnomov m hm (of_decide_eq_true hmid)

/-- Witness for claim C2 at the reachable three-task contention state. -/
theorem c2_admission_and_queue_order_witness :
    (Backend.c2pre.movementQueue.map (fun e => e.1)).Nodup ∧
    Backend.tickOrderSpec Backend.c2pre :=
  ⟨by decide, c2_admission_and_queue_order Backend.c2pre (by decide)⟩
